import Mathlib

set_option linter.unusedVariables false

/-!
Verification of the scalpEngine market-data bridge against its specification.

The Python sources are shallowly embedded: SQLite tables become lists of row
structures with `INSERT OR REPLACE` modelled as remove-then-append on the
primary key, dictionaries become association lists with overwrite-on-insert,
`datetime` minute buckets become minutes-since-midnight naturals (the
`HH:MM` rendering is injective on them), Python `int` division `/` becomes
guarded rational division that returns an error exactly when Python raises
`ZeroDivisionError`, and each network call becomes an explicit environment
field recording that call's outcome.  Asynchronous loops are modelled by the
sequential trace of events (emissions and sleeps) a single pass produces.
-/

/-! ## Byte-wise string comparison

SQLite's default BINARY collation compares TEXT values byte by byte; all
stored keys here are ASCII, so codepoint-wise comparison of the character
lists coincides with it.  (`String.decidableLT` is not used because its
iterator-based implementation does not reduce in the kernel.) -/

/-- Strict lexicographic order on character lists, as SQLite's BINARY
collation orders ASCII TEXT values. -/
def charsLt : List Char → List Char → Bool
  | [], [] => false
  | [], _ :: _ => true
  | _ :: _, [] => false
  | a :: as, b :: bs => if a < b then true else if b < a then false else charsLt as bs

/-- Strict order on strings via their character lists. -/
def strLt (a b : String) : Bool := charsLt a.data b.data

/-- Strict lexicographic order on (date, timestamp) pairs: the model of
`ORDER BY date DESC, timestamp DESC ... LIMIT 1` picking the greatest pair. -/
def dtLt (a b : String × String) : Bool :=
  strLt a.1 b.1 || (a.1 == b.1 && strLt a.2 b.2)

/-! ## Python dictionaries as association lists -/

/-- Overwrite-on-insert for a Python `dict` (and for the two in-memory
mapping tables of `SymbolMaster`): any earlier binding of the key is
dropped and the new binding appended. -/
def dictInsert (l : List (String × String)) (k v : String) : List (String × String) :=
  l.filter (fun p => !(p.1 == k)) ++ [(k, v)]

/-- Lookup in an association-list dictionary. -/
def dictGet? (l : List (String × String)) (k : String) : Option String :=
  (l.find? (fun p => p.1 == k)).map (fun p => p.2)

/-! ## Python arithmetic -/

/-- Python's true division on numbers: raises `ZeroDivisionError` on a zero
denominator, otherwise divides exactly (the quantities divided here are
ints, whose true division is exact rational division). -/
def pydiv (a b : ℚ) : Except String ℚ :=
  if b = 0 then .error "ZeroDivisionError" else .ok (a / b)

/-- Round half to even at integer precision, as Python's built-in `round`
ties-to-even behaviour. -/
def roundHalfEven (q : ℚ) : ℤ :=
  let f := ⌊q⌋
  if q - f < 1/2 then f
  else if q - f > 1/2 then f + 1
  else if 2 ∣ f then f else f + 1

/-- Python's `round(x, 2)`: round half to even at two decimal places. -/
def round2 (q : ℚ) : ℚ := (roundHalfEven (q * 100) : ℚ) / 100

/-! ## The Snapshot Store (`OptionDatabase` in `backfill_trendlyne.py`)

Each SQLite table is a list of row structures; `INSERT OR REPLACE` with the
table's composite primary key removes any row with the same key and appends
the new row. -/

/-- A row of the `option_aggregates` table, primary key
`(symbol, date, timestamp)`. -/
structure AggRow where
  symbol : String
  date : String
  timestamp : String
  expiry : String
  call_oi : ℤ
  put_oi : ℤ
  pcr : ℚ
deriving DecidableEq, Repr

/-- A row of the `option_chain_details` table, primary key
`(symbol, date, timestamp, strike)`. -/
structure DetailRow where
  symbol : String
  date : String
  timestamp : String
  strike : ℚ
  call_oi : ℤ
  put_oi : ℤ
  call_oi_chg : ℤ
  put_oi_chg : ℤ
deriving DecidableEq, Repr

/-- Primary key of `option_aggregates`. -/
def aggKey (r : AggRow) : String × String × String := (r.symbol, r.date, r.timestamp)

/-- Primary key of `option_chain_details`. -/
def detKey (r : DetailRow) : String × String × String × ℚ :=
  (r.symbol, r.date, r.timestamp, r.strike)

/-- The two tables of `options_data.db` used by the option-chain and PCR
paths (`market_breadth` and `pcr_history` play no part in the claims). -/
structure OptionDatabase where
  option_aggregates : List AggRow
  option_chain_details : List DetailRow
deriving DecidableEq, Repr

/-- `INSERT OR REPLACE` on `option_aggregates`. -/
def upsertAgg (rows : List AggRow) (r : AggRow) : List AggRow :=
  rows.filter (fun x => !(decide (aggKey x = aggKey r))) ++ [r]

/-- `INSERT OR REPLACE` on `option_chain_details`. -/
def upsertDet (rows : List DetailRow) (r : DetailRow) : List DetailRow :=
  rows.filter (fun x => !(decide (detKey x = detKey r))) ++ [r]

/-- Aggregate values computed by an acquisition (the dict
`{call_oi, put_oi, pcr}` built by `backfill_from_trendlyne` and
`fetch_live_snapshot_upstox`). -/
structure Aggregates where
  call_oi : ℤ
  put_oi : ℤ
  pcr : ℚ
deriving DecidableEq, Repr

/-- Per-strike values (the dict `{call_oi, put_oi, call_oi_chg, put_oi_chg}`
keyed by strike).  The Python dict key is the strike string, stored after a
`float` conversion; the model keys by the parsed numeral directly. -/
structure DetailData where
  call_oi : ℤ
  put_oi : ℤ
  call_oi_chg : ℤ
  put_oi_chg : ℤ
deriving DecidableEq, Repr

/-- The `option_aggregates` row one `save_snapshot` call inserts. -/
def aggRowOf (symbol trading_date timestamp expiry : String) (a : Aggregates) : AggRow :=
  ⟨symbol, trading_date, timestamp, expiry, a.call_oi, a.put_oi, a.pcr⟩

/-- The `option_chain_details` row one strike of a `save_snapshot` call
inserts. -/
def detRowOf (symbol trading_date timestamp : String) (sd : ℚ × DetailData) : DetailRow :=
  ⟨symbol, trading_date, timestamp, sd.1,
   sd.2.call_oi, sd.2.put_oi, sd.2.call_oi_chg, sd.2.put_oi_chg⟩

/-- One iteration of the `save_snapshot` detail loop: upsert the strike's
row. -/
def applyDetail (symbol trading_date timestamp : String) (d : OptionDatabase)
    (sd : ℚ × DetailData) : OptionDatabase :=
  { d with option_chain_details :=
      upsertDet d.option_chain_details (detRowOf symbol trading_date timestamp sd) }

/-- `OptionDatabase.save_snapshot`: upserts the aggregate row, then upserts
one detail row per strike, in the iteration order of the `details` dict. -/
def save_snapshot (db : OptionDatabase) (symbol trading_date timestamp expiry : String)
    (aggregates : Aggregates) (details : List (ℚ × DetailData)) : OptionDatabase :=
  let db1 : OptionDatabase :=
    { db with option_aggregates :=
        upsertAgg db.option_aggregates (aggRowOf symbol trading_date timestamp expiry aggregates) }
  details.foldl (applyDetail symbol trading_date timestamp) db1

/-- Fold picking the element whose key is greatest under `dtLt`: the model
of `ORDER BY date DESC, timestamp DESC LIMIT 1`. -/
def maxByDT {α : Type} (key : α → String × String) (x : α) (xs : List α) : α :=
  xs.foldl (fun a b => if dtLt (key a) (key b) then b else a) x

/-- Key of an aggregate row for latest-row selection. -/
def aggDT (r : AggRow) : String × String := (r.date, r.timestamp)

/-- Key of a detail row for latest-row selection. -/
def detDT (r : DetailRow) : String × String := (r.date, r.timestamp)

/-- `OptionDatabase.get_latest_aggregates`: the most recent aggregate row
for the symbol by descending (date, timestamp), or `None`. -/
def get_latest_aggregates (db : OptionDatabase) (symbol : String) : Option AggRow :=
  match db.option_aggregates.filter (fun r => r.symbol == symbol) with
  | [] => none
  | r :: rs => some (maxByDT aggDT r rs)

/-- One entry of the chain list returned by `get_latest_chain` (and then
broadcast as the `option_chain` payload). -/
structure ChainEntry where
  strike : ℚ
  call_oi : ℤ
  put_oi : ℤ
  call_oi_chg : ℤ
  put_oi_chg : ℤ
deriving DecidableEq, Repr

/-- Render a detail row as a chain entry. -/
def entryOfRow (r : DetailRow) : ChainEntry :=
  ⟨r.strike, r.call_oi, r.put_oi, r.call_oi_chg, r.put_oi_chg⟩

/-- `OptionDatabase.get_latest_chain`: find the most recent
(date, timestamp) holding detail rows for the symbol, then return every
detail row at that instant as a chain entry ( `[]` when the symbol has no
rows). -/
def get_latest_chain (db : OptionDatabase) (symbol : String) : List ChainEntry :=
  match db.option_chain_details.filter (fun r => r.symbol == symbol) with
  | [] => []
  | r :: rs =>
      let m := maxByDT detDT r rs
      (db.option_chain_details.filter
        (fun x => x.symbol == symbol && x.date == m.date && x.timestamp == m.timestamp)).map
        entryOfRow

/-! ## Option acquisition (`backfill_trendlyne.py`)

Each network call's outcome is an explicit environment field: `none` stands
for the call failing (an HTTP error, a non-`'0'` status, an exception) and
`some` for the payload the running code would see.  Numeric payload fields
arrive already parsed (`int(...)` / `float(...)` conversions succeed); a
payload whose numerals do not parse is covered by the `none` case, since
the surrounding `try` turns the `ValueError` into the same failure. -/

/-- Per-strike open-interest numbers of one Trendlyne `oiData` entry. -/
structure StrikeOi where
  callOi : ℤ
  putOi : ℤ
  callOiChange : ℤ
  putOiChange : ℤ
deriving DecidableEq, Repr

/-- The parts of a successful Trendlyne `live-oi-data` body the code reads.
`oiData` is a dict keyed by strike strings, modelled with parsed keys; being
a dict, its keys are pairwise distinct. -/
structure TrendlyneResp where
  oiData : List (ℚ × StrikeOi)
  tradingDate : Option String
  expDateList : Option (List String)
deriving DecidableEq, Repr

/-- The guarded put-call-ratio expression
`round(total_put_oi / total_call_oi, 2) if total_call_oi > 0 else 1.0`,
shared verbatim by `backfill_from_trendlyne` and
`fetch_live_snapshot_upstox`.  The division is Python's `/`, so a zero
denominator would raise; the guard is what prevents that. -/
def computePcr (total_put_oi total_call_oi : ℤ) : Except String ℚ :=
  if 0 < total_call_oi then (pydiv (total_put_oi : ℚ) (total_call_oi : ℚ)).map round2
  else .ok 1

/-- Totals-and-ratio aggregation over the Trendlyne `oiData` dict (lines
270-293 of `backfill_trendlyne.py`). -/
def mkAggregates (oiData : List (ℚ × StrikeOi)) : Except String Aggregates :=
  let total_call_oi := (oiData.map (fun p => p.2.callOi)).sum
  let total_put_oi := (oiData.map (fun p => p.2.putOi)).sum
  (computePcr total_put_oi total_call_oi).map (fun pcr => ⟨total_call_oi, total_put_oi, pcr⟩)

/-- The `details` dict built alongside the totals: one entry per strike, in
`oiData` iteration order. -/
def detailsOf (oiData : List (ℚ × StrikeOi)) : List (ℚ × DetailData) :=
  oiData.map (fun p => (p.1, ⟨p.2.callOi, p.2.putOi, p.2.callOiChange, p.2.putOiChange⟩))

/-- `expiry = input_data.get('expDateList', [expiry_date_str])[0]`: the
default list makes the parameter the fallback, while a present-but-empty
list makes `[0]` raise `IndexError` (caught by the surrounding `try`). -/
def backfillExpiry (expiry_date_str : String) (edl : Option (List String)) : Option String :=
  match edl with
  | none => some expiry_date_str
  | some [] => none
  | some (e :: _) => some e

/-- `backfill_from_trendlyne`: on a successful, status-`'0'` response,
aggregate the open interest, save the snapshot and report `True`; any
failure (HTTP error, bad status, an empty `expDateList` making
`[...][0]` raise, a numeric parse failure) is caught and reported as
`False` with the store untouched. -/
def backfill_from_trendlyne (db : OptionDatabase) (symbol : String)
    (expiry_date_str timestamp_snapshot nowDate : String)
    (response : Option TrendlyneResp) : OptionDatabase × Bool :=
  match response with
  | none => (db, false)
  | some r =>
      match backfillExpiry expiry_date_str r.expDateList with
      | none => (db, false)
      | some expiry =>
          match mkAggregates r.oiData with
          | .error _ => (db, false)
          | .ok aggs =>
              (save_snapshot db symbol (r.tradingDate.getD nowDate) timestamp_snapshot expiry
                aggs (detailsOf r.oiData), true)

/-- The `oi`/`prev_oi` numbers of one side's `market_data` in an Upstox
chain item. -/
structure UpstoxMarketData where
  oi : ℤ
  prev_oi : ℤ
deriving DecidableEq, Repr

/-- One item of the Upstox `get_put_call_option_chain` response.  A side's
`market_data` may be missing (`None`), in which case its numbers read 0. -/
structure UpstoxChainItem where
  strike_price : ℚ
  call_md : Option UpstoxMarketData
  put_md : Option UpstoxMarketData
deriving DecidableEq, Repr

/-- `int(ce.oi) if ce and ce.oi else 0` (a zero `oi` takes the `else`
branch, which also yields 0). -/
def upstoxCallOi (it : UpstoxChainItem) : ℤ :=
  match it.call_md with | some md => md.oi | none => 0

/-- `int(ce.prev_oi) if ce and ce.prev_oi else 0`. -/
def upstoxCallPrev (it : UpstoxChainItem) : ℤ :=
  match it.call_md with | some md => md.prev_oi | none => 0

/-- `int(pe.oi) if pe and pe.oi else 0`. -/
def upstoxPutOi (it : UpstoxChainItem) : ℤ :=
  match it.put_md with | some md => md.oi | none => 0

/-- `int(pe.prev_oi) if pe and pe.prev_oi else 0`. -/
def upstoxPutPrev (it : UpstoxChainItem) : ℤ :=
  match it.put_md with | some md => md.prev_oi | none => 0

/-- Build a Python dict from keyed entries in order: a later entry with an
equal key overwrites the earlier one. -/
def dictBuildDet (l : List (ℚ × DetailData)) : List (ℚ × DetailData) :=
  l.foldl (fun acc p => acc.filter (fun q => !(decide (q.1 = p.1))) ++ [p]) []

/-- The `details` dict the Upstox parse loop builds (`details[str(strike)]
= {...}`): keyed by strike, later duplicates overwriting. -/
def upstoxDetails (items : List UpstoxChainItem) : List (ℚ × DetailData) :=
  dictBuildDet (items.map (fun it =>
    (it.strike_price,
     ⟨upstoxCallOi it, upstoxPutOi it,
      upstoxCallOi it - upstoxCallPrev it, upstoxPutOi it - upstoxPutPrev it⟩)))

/-- Outcomes of the calls `fetch_live_snapshot_upstox` makes, plus the
clock readings it takes. -/
structure UpstoxEnv where
  sdk_available : Bool
  master_key : Option String
  cached_expiry : Option String
  stock_id : Option ℤ
  expiry_dates : Option (List String)
  response : Option (List UpstoxChainItem)
  nowDate : String
  nowTime : String
deriving Repr

/-- The instrument-key resolution of `fetch_live_snapshot_upstox` (lines
320-329): the two indices are hard-wired, every other symbol goes through
`SymbolMaster.get_upstox_key`. -/
def upstoxInstrumentKey (symbol : String) (env : UpstoxEnv) : Option String :=
  if symbol == "NIFTY" then some "NSE_INDEX|Nifty 50"
  else if symbol == "BANKNIFTY" then some "NSE_INDEX|Nifty Bank"
  else env.master_key

/-- The expiry resolution of `fetch_live_snapshot_upstox` (lines 342-357):
the cache, else — when a stock id resolves — the first Trendlyne expiry. -/
def upstoxExpiry (env : UpstoxEnv) : Option String :=
  match env.cached_expiry with
  | some e => some e
  | none =>
      match env.stock_id, env.expiry_dates with
      | some _, some (e :: _) => some e
      | _, _ => none

/-- The all-zero rejection and the body of the Upstox parse loop: totals,
ratio, save, return the store's now-latest chain. -/
def upstoxParseAndSave (db : OptionDatabase) (symbol expiry : String) (env : UpstoxEnv)
    (items : List UpstoxChainItem) : Option (OptionDatabase × List ChainEntry) :=
  if (items.map upstoxCallOi).sum = 0 ∧ (items.map upstoxPutOi).sum = 0 then none
  else
    match computePcr ((items.map upstoxPutOi).sum) ((items.map upstoxCallOi).sum) with
    | .error _ => none
    | .ok pcr =>
        let db2 := save_snapshot db symbol env.nowDate env.nowTime expiry
          ⟨(items.map upstoxCallOi).sum, (items.map upstoxPutOi).sum, pcr⟩
          (upstoxDetails items)
        some (db2, get_latest_chain db2 symbol)

/-- `fetch_live_snapshot_upstox`: the primary option-chain tier.  Returns
`none` on any failure — SDK or token missing, unresolved instrument key or
expiry, a failed or empty API response, or an all-zero payload (line 407:
`if total_call_oi == 0 and total_put_oi == 0: return None`) — and otherwise
saves the snapshot and returns the store's now-latest chain. -/
def fetch_live_snapshot_upstox (db : OptionDatabase) (symbol : String) (env : UpstoxEnv) :
    Option (OptionDatabase × List ChainEntry) :=
  if !env.sdk_available then none else
  match upstoxInstrumentKey symbol env with
  | none => none
  | some _ =>
    match upstoxExpiry env with
    | none => none
    | some expiry =>
      match env.response with
      | some (i :: is) => upstoxParseAndSave db symbol expiry env (i :: is)
      | _ => none

/-- Outcomes of the calls the Trendlyne fallback of `fetch_live_snapshot`
makes. `cached_expiry_expired` records the validation `date.today() >
exp_date` (or the parse failing), which discards the cached expiry. -/
structure TrendlyneEnv where
  stock_id : Option ℤ
  cached_expiry : Option String
  cached_expiry_expired : Bool
  expiry_dates : Option (List String)
  response : Option TrendlyneResp
  nowDate : String
  nowTime : String
deriving Repr

/-- The expiry resolution of the Trendlyne fallback (lines 444-464): the
cached expiry unless it is expired or unparsable, else the first freshly
fetched expiry date. -/
def resolveTrendlyneExpiry (tenv : TrendlyneEnv) : Option String :=
  match (match tenv.cached_expiry with
         | some e => if tenv.cached_expiry_expired then none else some e
         | none => none) with
  | some e => some e
  | none =>
      match tenv.expiry_dates with
      | some (e :: _) => some e
      | _ => none

/-- The Trendlyne fallback branch of `fetch_live_snapshot` (lines 438-477):
no stock id yields `[]`; no resolvable expiry yields the store's latest
chain; otherwise `backfill_from_trendlyne` runs (saving on success) and the
store's latest chain is returned whether or not it succeeded. -/
def trendlyneTier (db : OptionDatabase) (symbol : String) (tenv : TrendlyneEnv) :
    OptionDatabase × List ChainEntry :=
  match tenv.stock_id with
  | none => (db, [])
  | some _ =>
      match resolveTrendlyneExpiry tenv with
      | none => (db, get_latest_chain db symbol)
      | some e =>
          let res := backfill_from_trendlyne db symbol e tenv.nowTime tenv.nowDate tenv.response
          (res.1, get_latest_chain res.1 symbol)

/-- `fetch_live_snapshot`: try the Upstox tier; if it yields a non-empty
chain (`if upstox_chain:`) return it, otherwise fall back to Trendlyne on
the store as the first tier left it. -/
def fetch_live_snapshot (db : OptionDatabase) (symbol : String)
    (uenv : UpstoxEnv) (tenv : TrendlyneEnv) : OptionDatabase × List ChainEntry :=
  match fetch_live_snapshot_upstox db symbol uenv with
  | some (db1, c :: cs) => (db1, c :: cs)
  | some (db1, []) => trendlyneTier db1 symbol tenv
  | none => trendlyneTier db symbol tenv

/-! ## The Symbol Resolver (`SymbolMaster.py`)

The instrument catalog is the parsed content of the Upstox NSE instrument
master; a row keeps the columns the code reads.  Python's `str.upper()` on
these ASCII values is `Char.toUpper` mapped over the characters
(`String.toUpper` itself is avoided only because `String.mapAux` does not
reduce in the kernel). -/

/-- The columns of one instrument-master row that `SymbolMaster` reads. -/
structure InstrumentRow where
  segment : String
  trading_symbol : String
  instrument_key : String
  name : String
deriving DecidableEq, Repr

/-- Python `str.upper()` for the ASCII catalog values. -/
def pyUpper (s : String) : String := ⟨s.data.map Char.toUpper⟩

/-- The two in-memory tables `_mappings` (canonical symbol → provider key)
and `_reverse_mappings` (provider key → canonical symbol). -/
structure Mappings where
  mappings : List (String × String)
  reverse_mappings : List (String × String)
deriving DecidableEq, Repr

/-- The tables before any row is loaded. -/
def emptyMappings : Mappings := ⟨[], []⟩

/-- One iteration of the catalog loop (lines 107-122 of `SymbolMaster.py`):
insert the uppercased trading symbol forward and the key backward, then the
index special-casing adds the `NIFTY` / `BANKNIFTY` aliases into the
forward table only. -/
def addInstrumentRow (m : Mappings) (r : InstrumentRow) : Mappings :=
  let nm := pyUpper r.trading_symbol
  let key := r.instrument_key
  let m1 : Mappings :=
    ⟨dictInsert m.mappings nm key, dictInsert m.reverse_mappings key nm⟩
  if r.segment == "NSE_INDEX" then
    if r.name == "Nifty 50" || r.trading_symbol == "Nifty 50" then
      { m1 with mappings := dictInsert m1.mappings "NIFTY" key }
    else if r.name == "Nifty Bank" || r.trading_symbol == "Nifty Bank" then
      { m1 with mappings := dictInsert m1.mappings "BANKNIFTY" key }
    else m1
  else m1

/-- The mapping tables built by a successful catalog parse: keep only the
`NSE_EQ` and `NSE_INDEX` segments, then load each row in order. -/
def buildMappings (catalog : List InstrumentRow) : Mappings :=
  (catalog.filter (fun r => r.segment == "NSE_EQ" || r.segment == "NSE_INDEX")).foldl
    addInstrumentRow emptyMappings

/-- The `_initialized` flag and the mapping tables. -/
structure ResolverState where
  isInit : Bool
  maps : Mappings

/-- Outcomes of the three steps `SymbolMaster.initialize` takes: the
catalog download (content, or the raised exception), the disk cache
(content when the cache file exists), and the gzip+`read_json` parse
(`none` when parsing raises). -/
structure ResolverEnv where
  download : Except String String
  cacheFile : Option String
  parse : String → Option (List InstrumentRow)

/-- `SymbolMaster.initialize` on an uninitialized instance: a failed
download falls back to the disk cache; with neither, the download's
exception is re-raised (`raise e`, line 88).  A parse failure is caught
and logged, leaving the instance uninitialized but alive. -/
def initSymbolMaster (env : ResolverEnv) : Except String ResolverState :=
  let content : Except String String :=
    match env.download with
    | .ok c => .ok c
    | .error e =>
        match env.cacheFile with
        | some c => .ok c
        | none => .error e
  match content with
  | .error e => .error e
  | .ok c =>
      match env.parse c with
      | some catalog => .ok ⟨true, buildMappings catalog⟩
      | none => .ok ⟨false, emptyMappings⟩

/-- The lookup at the heart of `get_upstox_key`: uppercase, then the
forward table. -/
def resolveKey (m : Mappings) (symbol : String) : Option String :=
  dictGet? m.mappings (pyUpper symbol)

/-- The lookup at the heart of `get_ticker_from_key`: the reverse table,
defaulting to the key itself. -/
def resolveTicker (m : Mappings) (key : String) : String :=
  (dictGet? m.reverse_mappings key).getD key

/-- `SymbolMaster.get_upstox_key`: lazily (re-)runs initialization when
uninitialized — so its exception propagates to the caller — then looks the
uppercased symbol up. -/
def get_upstox_key (st : ResolverState) (env : ResolverEnv) (symbol : String) :
    Except String (Option String) :=
  let stE : Except String ResolverState := if st.isInit then .ok st else initSymbolMaster env
  match stE with
  | .error e => .error e
  | .ok st2 => .ok (resolveKey st2.maps symbol)

/-- `SymbolMaster.get_ticker_from_key`: same lazy initialization, then the
reverse lookup defaulting to the key itself. -/
def get_ticker_from_key (st : ResolverState) (env : ResolverEnv) (key : String) :
    Except String String :=
  let stE : Except String ResolverState := if st.isInit then .ok st else initSymbolMaster env
  match stE with
  | .error e => .error e
  | .ok st2 => .ok (resolveTicker st2.maps key)

/-! ## The Backtest Replay Engine (`backtest_replay.py`)

Minute buckets are minutes since midnight (`09:15` is 555); `HH:MM`
rendering is injective on them, so keying the in-memory candle data by the
minute is faithful to keying it by the rendered string.  The engine's
asynchronous run is modelled by the sequential trace of events it produces:
a client connecting, a message being sent to the connected clients, or a
timed sleep. -/

/-- A row of the `backtest_candles` table as `_load_candle_data` groups it. -/
structure CandleRow where
  symbol : String
  open_ : ℚ
  high : ℚ
  low : ℚ
  close : ℚ
  volume : ℤ
  source : String
deriving DecidableEq, Repr

/-- The `"1m"` sub-dict of a `candle_update` entry. -/
structure OhlcvVwap where
  open_ : ℚ
  high : ℚ
  low : ℚ
  close : ℚ
  volume : ℤ
  vwap : ℚ
deriving DecidableEq, Repr

/-- The `"5m"` sub-dict of a `candle_update` entry. -/
structure Ohlcv where
  open_ : ℚ
  high : ℚ
  low : ℚ
  close : ℚ
  volume : ℤ
deriving DecidableEq, Repr

/-- One entry of a `candle_update` payload (both the live bridge and the
replay engine build entries with exactly these fields). -/
structure CandleUpdateEntry where
  symbol : String
  timestamp : ℤ
  m1 : OhlcvVwap
  m5 : Ohlcv
  pcr : ℚ
deriving DecidableEq, Repr

/-- `BacktestReplayEngine._get_pcr`: the latest stored aggregate's `pcr`,
else the fallback 1.0. -/
def _get_pcr (db : OptionDatabase) (symbol : String) : ℚ :=
  match get_latest_aggregates db symbol with
  | some agg => agg.pcr
  | none => 1

set_option linter.unusedVariables false in
/-- `BacktestReplayEngine._get_option_chain`: despite receiving the replay
clock (`current_time_str`, here the minute number), it reads the store's
globally latest chain; the clock parameter is read by no one.  The
source's `chain if chain else []` is the identity on lists. -/
def _get_option_chain (db : OptionDatabase) (symbol : String) (current_time : ℕ) :
    List ChainEntry :=
  get_latest_chain db symbol

/-- The replay engine's construction-time state: the parsed target date
(as an epoch day index), the playback speed, the inclusive start/end
minutes, the in-memory candle data keyed by minute, the Trendlyne store it
reads options from, and whether a subscriber is connected during playback. -/
structure BacktestReplayEngine where
  target_day : ℤ
  speed : ℤ
  start_time : ℕ
  end_time : ℕ
  candle_data : List (ℕ × List CandleRow)
  db : OptionDatabase
  hasClients : Bool
deriving DecidableEq, Repr

/-- `timestamp_str in self.candle_data` / `self.candle_data[timestamp_str]`. -/
def lookupBucket (data : List (ℕ × List CandleRow)) (t : ℕ) : Option (List CandleRow) :=
  (data.find? (fun p => p.1 == t)).map (fun p => p.2)

/-- A message the replay engine broadcasts. -/
inductive BMsg where
  | candle_update (data : List CandleUpdateEntry)
  | option_chain (symbol : String) (data : List ChainEntry)
  | pcr_update (symbol : String) (pcr : ℚ)
deriving DecidableEq, Repr

/-- One event of the replay server's trace. -/
inductive ReplayEvent where
  | clientConnected
  | emit (minute : ℕ) (msg : BMsg)
  | sleep (seconds : ℚ)
deriving DecidableEq, Repr

/-- One `candle_update` entry as `broadcast_candles` builds it: epoch-ms
timestamp from the target date and minute, `vwap` approximated by the
close, the 1m bar replicated as the 5m placeholder, and the PCR attached
for the two tracked indices only. -/
def replayEntryOfRow (day : ℤ) (bucket : ℕ) (db : OptionDatabase) (c : CandleRow) :
    CandleUpdateEntry where
  symbol := c.symbol
  timestamp := day * 86400000 + (bucket : ℤ) * 60000
  m1 := ⟨c.open_, c.high, c.low, c.close, c.volume, c.close⟩
  m5 := ⟨c.open_, c.high, c.low, c.close, c.volume⟩
  pcr := if c.symbol == "NIFTY" || c.symbol == "BANKNIFTY" then _get_pcr db c.symbol else 1

/-- `BacktestReplayEngine.broadcast_candles`: nothing is emitted for a
minute absent from the loaded data; otherwise one batched `candle_update`
goes to the connected clients (none when no client is connected). -/
def broadcast_candles (eng : BacktestReplayEngine) (bucket : ℕ) : List ReplayEvent :=
  match lookupBucket eng.candle_data bucket with
  | none => []
  | some rows =>
      if eng.hasClients then
        [.emit bucket (.candle_update (rows.map (replayEntryOfRow eng.target_day bucket eng.db)))]
      else []

/-- `BacktestReplayEngine.broadcast_option_chain`: per tracked index, emit
the store's latest chain when it is non-empty. -/
def broadcast_option_chain (eng : BacktestReplayEngine) (bucket : ℕ) : List ReplayEvent :=
  ["NIFTY", "BANKNIFTY"].flatMap (fun sym =>
    match _get_option_chain eng.db sym bucket with
    | [] => []
    | c :: cs => if eng.hasClients then [.emit bucket (.option_chain sym (c :: cs))] else [])

/-- `BacktestReplayEngine.broadcast_pcr`: per tracked index, emit the
latest PCR unconditionally. -/
def broadcast_pcr (eng : BacktestReplayEngine) (bucket : ℕ) : List ReplayEvent :=
  ["NIFTY", "BANKNIFTY"].flatMap (fun sym =>
    if eng.hasClients then [.emit bucket (.pcr_update sym (_get_pcr eng.db sym))] else [])

/-- The guarded suspension at the bottom of the loop body:
`if self.speed < 999: await asyncio.sleep(60 / self.speed)`.  The division
is unguarded, so a zero speed raises `ZeroDivisionError` here. -/
def interBucketSleep (speed : ℤ) : Except String (List ReplayEvent) :=
  if speed < 999 then (pydiv 60 (speed : ℚ)).map (fun q => [.sleep q]) else .ok []

/-- The loop body of `replay_loop` over the remaining minutes: emit the
minute's messages, then suspend; an exception from the suspension ends the
trace there (second component). -/
def runBuckets (eng : BacktestReplayEngine) : List ℕ → List ReplayEvent × Option String
  | [] => ([], none)
  | t :: ts =>
      let evs := broadcast_candles eng t ++ broadcast_option_chain eng t ++ broadcast_pcr eng t
      match interBucketSleep eng.speed with
      | .error e => (evs, some e)
      | .ok sl =>
          let rest := runBuckets eng ts
          (evs ++ sl ++ rest.1, rest.2)

/-- The minutes `while current_dt <= end_dt` visits (none when the start
lies beyond the end). -/
def bucketList (s e : ℕ) : List ℕ := List.range' s (e + 1 - s)

/-- `BacktestReplayEngine.replay_loop`: one pass over the configured
minute range. -/
def replay_loop (eng : BacktestReplayEngine) : List ReplayEvent × Option String :=
  runBuckets eng (bucketList eng.start_time eng.end_time)

/-- `BacktestReplayEngine.start_server`: playback starts only after the
wait loop has seen a subscriber connect, then a fixed 2-second settle
sleep, then `replay_loop`. -/
def start_server (eng : BacktestReplayEngine) : List ReplayEvent × Option String :=
  let r := replay_loop eng
  (ReplayEvent.clientConnected :: ReplayEvent.sleep 2 :: r.1, r.2)

/-- The minutes of the `candle_update` emissions of a trace, in order. -/
def candleBuckets (evs : List ReplayEvent) : List ℕ :=
  evs.filterMap (fun e =>
    match e with
    | .emit t (.candle_update _) => some t
    | _ => none)

/-- Whether an event is a timed sleep. -/
def isSleepEvent : ReplayEvent → Bool
  | .sleep _ => true
  | _ => false

/-! ## The live candle fetch (`TVCandleBridge.fetch_candles`)

Four tiers; each environment field is the corresponding call's outcome,
`.error` standing for the exception it raised. -/

/-- Outcomes of the candle tiers for one `fetch_candles` call. -/
structure CandleFetchEnv where
  upstox_enabled : Bool
  upstox_result : Except String (List CandleUpdateEntry)
  tv_premium : Except String (List CandleUpdateEntry)
  tv_public : Except String (List CandleUpdateEntry)
  yahoo : Except String (List CandleUpdateEntry)

/-- `TVCandleBridge.fetch_candles`: Upstox primary (used only when enabled,
and only a non-empty success returns), then TradingView with cookies, then
without, then Yahoo; every tier's exception is caught, and when the last
tier also raises the result is the empty list. -/
def fetch_candles (env : CandleFetchEnv) : List CandleUpdateEntry :=
  let afterUpstox : Option (List CandleUpdateEntry) :=
    if env.upstox_enabled then
      match env.upstox_result with
      | .ok (c :: cs) => some (c :: cs)
      | _ => none
    else none
  match afterUpstox with
  | some r => r
  | none =>
      match env.tv_premium with
      | .ok r => r
      | .error _ =>
          match env.tv_public with
          | .ok r => r
          | .error _ =>
              match env.yahoo with
              | .ok r => r
              | .error _ => []

/-! ## Broadcast messages as JSON (`json.dumps` arguments)

The dicts passed to `json.dumps` by both programs, as a small JSON value
type; `topKeys` is an envelope's set of top-level keys in construction
order. -/

/-- A JSON value as the two programs construct them. -/
inductive Json where
  | str (v : String)
  | num (v : ℚ)
  | arr (vs : List Json)
  | obj (fields : List (String × Json))

/-- Top-level keys of a JSON object. -/
def topKeys : Json → List String
  | .obj fields => fields.map (fun p => p.1)
  | _ => []

/-- A chain entry as both programs place it in an `option_chain` payload
(the dicts come from `get_latest_chain` in both). -/
def jsonOfChainEntry (e : ChainEntry) : Json :=
  .obj [("strike", .num e.strike), ("call_oi", .num (e.call_oi : ℚ)),
        ("put_oi", .num (e.put_oi : ℚ)), ("call_oi_chg", .num (e.call_oi_chg : ℚ)),
        ("put_oi_chg", .num (e.put_oi_chg : ℚ))]

/-- The `"1m"` sub-dict. -/
def jsonOfOhlcvVwap (o : OhlcvVwap) : Json :=
  .obj [("open", .num o.open_), ("high", .num o.high), ("low", .num o.low),
        ("close", .num o.close), ("volume", .num (o.volume : ℚ)), ("vwap", .num o.vwap)]

/-- The `"5m"` sub-dict. -/
def jsonOfOhlcv (o : Ohlcv) : Json :=
  .obj [("open", .num o.open_), ("high", .num o.high), ("low", .num o.low),
        ("close", .num o.close), ("volume", .num (o.volume : ℚ))]

/-- One `candle_update` entry as both programs build it. -/
def jsonOfCandleEntry (c : CandleUpdateEntry) : Json :=
  .obj [("symbol", .str c.symbol), ("timestamp", .num (c.timestamp : ℚ)),
        ("1m", jsonOfOhlcvVwap c.m1), ("5m", jsonOfOhlcv c.m5), ("pcr", .num c.pcr)]

/-- The live bridge's `candle_update` envelope
(`{"type": "candle_update", "data": data}`, `tv_data_bridge.py` line 420). -/
def liveCandleMsg (data : List CandleUpdateEntry) : Json :=
  .obj [("type", .str "candle_update"), ("data", .arr (data.map jsonOfCandleEntry))]

/-- The live bridge's `option_chain` envelope (lines 107-112): type,
symbol, an epoch-ms timestamp, and the chain. -/
def liveOptionChainMsg (symbol : String) (timestamp : ℤ) (chain : List ChainEntry) : Json :=
  .obj [("type", .str "option_chain"), ("symbol", .str symbol),
        ("timestamp", .num (timestamp : ℚ)), ("data", .arr (chain.map jsonOfChainEntry))]

/-- The live bridge's `market_breadth` envelope (lines 131-141 / 151-158). -/
def liveBreadthMsg (timestamp : ℤ) (advances declines unchanged total : ℤ)
    (sectors : Json) : Json :=
  .obj [("type", .str "market_breadth"), ("timestamp", .num (timestamp : ℚ)),
        ("data", .obj [("advances", .num (advances : ℚ)), ("declines", .num (declines : ℚ)),
                       ("unchanged", .num (unchanged : ℚ)), ("total", .num (total : ℚ)),
                       ("sectors", sectors)])]

/-- The replay engine's `candle_update` envelope
(`backtest_replay.py` lines 141-144). -/
def replayCandleMsg (data : List CandleUpdateEntry) : Json :=
  .obj [("type", .str "candle_update"), ("data", .arr (data.map jsonOfCandleEntry))]

/-- The replay engine's `option_chain` envelope (lines 157-161): type,
symbol and the chain — no timestamp key. -/
def replayOptionChainMsg (symbol : String) (chain : List ChainEntry) : Json :=
  .obj [("type", .str "option_chain"), ("symbol", .str symbol),
        ("data", .arr (chain.map jsonOfChainEntry))]

/-- The replay engine's `pcr_update` envelope (lines 173-177). -/
def replayPcrMsg (symbol : String) (pcr : ℚ) : Json :=
  .obj [("type", .str "pcr_update"), ("symbol", .str symbol), ("pcr", .num pcr)]

/-- The rendering of a traced replay message through the envelopes above. -/
def replayJsonOfMsg : BMsg → Json
  | .candle_update data => replayCandleMsg data
  | .option_chain sym chain => replayOptionChainMsg sym chain
  | .pcr_update sym pcr => replayPcrMsg sym pcr

/-! ## Spec-side comparison definitions (for the carry-forward claim) -/

/-- Non-strict counterpart of `dtLt`. -/
def dtLe (a b : String × String) : Bool := !(dtLt b a)

/-- Modelled from the spec: “the emitted `option_chain` … for that minute
equals the most recent prior minute's recorded value (carry-forward)” — the
latest recorded chain among the rows at or before the replay cutoff,
written for comparison with `_get_option_chain`. -/
def chain_at_or_before (db : OptionDatabase) (symbol : String)
    (cutoff : String × String) : List ChainEntry :=
  match db.option_chain_details.filter
      (fun r => r.symbol == symbol && dtLe (detDT r) cutoff) with
  | [] => []
  | r :: rs =>
      let m := maxByDT detDT r rs
      (db.option_chain_details.filter
        (fun x => x.symbol == symbol && dtLe (detDT x) cutoff
          && x.date == m.date && x.timestamp == m.timestamp)).map entryOfRow

/-- Modelled from the spec: the most recent recorded aggregate row at or
before the replay cutoff, written for comparison with the engine's
lookups. -/
def agg_at_or_before (db : OptionDatabase) (symbol : String)
    (cutoff : String × String) : Option AggRow :=
  match db.option_aggregates.filter
      (fun r => r.symbol == symbol && dtLe (aggDT r) cutoff) with
  | [] => none
  | r :: rs => some (maxByDT aggDT r rs)

/-- Modelled from the spec: the carried-forward PCR at the replay cutoff
(1.0 when nothing has been recorded yet), written for comparison with
`_get_pcr`. -/
def pcr_at_or_before (db : OptionDatabase) (symbol : String)
    (cutoff : String × String) : ℚ :=
  match agg_at_or_before db symbol cutoff with
  | some agg => agg.pcr
  | none => 1

/-- The chain entry a saved strike reappears as in `get_latest_chain`. -/
def chainEntryOfDetail (sd : ℚ × DetailData) : ChainEntry :=
  ⟨sd.1, sd.2.call_oi, sd.2.put_oi, sd.2.call_oi_chg, sd.2.put_oi_chg⟩

/-! # Lemmas

Order facts for `charsLt` / `strLt` / `dtLt`, membership facts for the
greatest-row fold, and rewrite lemmas for the upsert operations.  These
feed the claim theorems below. -/

theorem charsLt_irrefl (l : List Char) : charsLt l l = false := by
  induction l with
  | nil => rfl
  | cons a as ih => simp [charsLt, ih]

theorem charsLt_conn {a b : List Char} (hab : charsLt a b = false)
    (hba : charsLt b a = false) : a = b := by
  induction a generalizing b with
  | nil =>
      cases b with
      | nil => rfl
      | cons y ys => simp [charsLt] at hab
  | cons x xs ih =>
      cases b with
      | nil => simp [charsLt] at hba
      | cons y ys =>
          rcases lt_trichotomy x y with h | h | h
          · simp [charsLt, h] at hab
          · subst h
            simp only [charsLt, lt_irrefl, if_false] at hab hba
            rw [ih hab hba]
          · simp [charsLt, h] at hba

theorem charsLt_trans {a b c : List Char} (hab : charsLt a b = true)
    (hbc : charsLt b c = true) : charsLt a c = true := by
  induction a generalizing b c with
  | nil =>
      cases c with
      | nil => cases b <;> simp [charsLt] at hbc
      | cons z zs => simp [charsLt]
  | cons x xs ih =>
      cases b with
      | nil => simp [charsLt] at hab
      | cons y ys =>
          cases c with
          | nil => simp [charsLt] at hbc
          | cons z zs =>
              rcases lt_trichotomy x y with hxy | hxy | hxy
              · rcases lt_trichotomy y z with hyz | hyz | hyz
                · simp [charsLt, lt_trans hxy hyz]
                · subst hyz; simp [charsLt, hxy]
                · simp [charsLt, asymm hyz, hyz] at hbc
              · subst hxy
                rcases lt_trichotomy x z with hxz | hxz | hxz
                · simp [charsLt, hxz]
                · subst hxz
                  simp only [charsLt, lt_irrefl, if_false] at hab hbc ⊢
                  exact ih hab hbc
                · simp [charsLt, asymm hxz, hxz] at hbc
              · simp [charsLt, asymm hxy, hxy] at hab

theorem charsLt_asymm {a b : List Char} (h : charsLt a b = true) :
    charsLt b a = false := by
  by_contra hba
  have hba' : charsLt b a = true := by
    revert hba; cases charsLt b a <;> simp
  have h2 := charsLt_trans h hba'
  rw [charsLt_irrefl] at h2
  exact Bool.false_ne_true h2

theorem strLt_irrefl (a : String) : strLt a a = false := charsLt_irrefl a.data

theorem strLt_conn {a b : String} (hab : strLt a b = false)
    (hba : strLt b a = false) : a = b := by
  cases a; cases b
  exact congrArg String.mk (charsLt_conn hab hba)

theorem strLt_trans {a b c : String} (hab : strLt a b = true)
    (hbc : strLt b c = true) : strLt a c = true := charsLt_trans hab hbc

theorem strLt_asymm {a b : String} (h : strLt a b = true) : strLt b a = false :=
  charsLt_asymm h

theorem dtLt_irrefl (a : String × String) : dtLt a a = false := by
  simp [dtLt, strLt_irrefl]

theorem dtLt_conn {a b : String × String} (hab : dtLt a b = false)
    (hba : dtLt b a = false) : a = b := by
  simp only [dtLt, Bool.or_eq_false_iff, Bool.and_eq_false_iff] at hab hba
  have h1 : a.1 = b.1 := strLt_conn hab.1 hba.1
  have h2 : a.2 = b.2 := by
    rcases hab.2 with h | h
    · rw [h1] at h; simp at h
    · rcases hba.2 with h' | h'
      · rw [h1] at h'; simp at h'
      · exact strLt_conn h h'
  exact Prod.ext h1 h2

theorem dtLt_trans {a b c : String × String} (hab : dtLt a b = true)
    (hbc : dtLt b c = true) : dtLt a c = true := by
  simp only [dtLt, Bool.or_eq_true, Bool.and_eq_true, beq_iff_eq] at hab hbc ⊢
  rcases hab with h1 | ⟨he1, ht1⟩
  · rcases hbc with h2 | ⟨he2, ht2⟩
    · exact Or.inl (strLt_trans h1 h2)
    · rw [he2] at h1; exact Or.inl h1
  · rcases hbc with h2 | ⟨he2, ht2⟩
    · rw [he1]; exact Or.inl h2
    · exact Or.inr ⟨he1.trans he2, strLt_trans ht1 ht2⟩

theorem dtLt_neg_trans {a b c : String × String} (hab : dtLt a b = false)
    (hbc : dtLt b c = false) : dtLt a c = false := by
  by_contra hac
  have hac' : dtLt a c = true := by revert hac; cases dtLt a c <;> simp
  rcases h : dtLt c b with hf | ht
  · have hbc' := dtLt_conn hbc h
    rw [hbc'] at hab
    rw [hab] at hac'
    exact Bool.false_ne_true hac'
  · have h2 := dtLt_trans hac' h
    rw [hab] at h2
    exact Bool.false_ne_true h2


theorem dtLt_asymm {a b : String × String} (h : dtLt a b = true) : dtLt b a = false := by
  by_contra hba
  have hba' : dtLt b a = true := by revert hba; cases dtLt b a <;> simp
  have h2 := dtLt_trans h hba'
  rw [dtLt_irrefl] at h2
  exact Bool.false_ne_true h2

theorem maxByDT_mem {α : Type} (key : α → String × String) (x : α) (xs : List α) :
    maxByDT key x xs ∈ x :: xs := by
  induction xs generalizing x with
  | nil => simp [maxByDT]
  | cons b bs ih =>
      rcases h : dtLt (key x) (key b) with _ | _
      · have h2 : maxByDT key x (b :: bs) = maxByDT key x bs := by simp [maxByDT, h]
        rw [h2]
        have h3 := ih x
        simp only [List.mem_cons] at h3 ⊢
        tauto
      · have h2 : maxByDT key x (b :: bs) = maxByDT key b bs := by simp [maxByDT, h]
        rw [h2]
        have h3 := ih b
        simp only [List.mem_cons] at h3 ⊢
        tauto

theorem maxByDT_not_lt {α : Type} (key : α → String × String) (x : α) (xs : List α) :
    ∀ y ∈ x :: xs, dtLt (key (maxByDT key x xs)) (key y) = false := by
  induction xs generalizing x with
  | nil =>
      intro y hy
      simp only [List.mem_cons, List.not_mem_nil, or_false] at hy
      subst hy
      simp [maxByDT, dtLt_irrefl]
  | cons b bs ih =>
      intro y hy
      rcases h : dtLt (key x) (key b) with _ | _
      · have h2 : maxByDT key x (b :: bs) = maxByDT key x bs := by simp [maxByDT, h]
        rw [h2]
        simp only [List.mem_cons] at hy
        rcases hy with h3 | h3 | h3
        · rw [h3]; exact ih x x (by simp)
        · rw [h3]; exact dtLt_neg_trans (ih x x (by simp)) h
        · exact ih x y (by simp [h3])
      · have h2 : maxByDT key x (b :: bs) = maxByDT key b bs := by simp [maxByDT, h]
        rw [h2]
        simp only [List.mem_cons] at hy
        rcases hy with h3 | h3 | h3
        · rw [h3]; exact dtLt_neg_trans (ih b b (by simp)) (dtLt_asymm h)
        · rw [h3]; exact ih b b (by simp)
        · exact ih b y (by simp [h3])

theorem filter_upsert_self {α κ : Type} [DecidableEq κ] (key : α → κ) (rows : List α) (r : α) :
    ((rows.filter (fun x => !(decide (key x = key r)))) ++ [r]).filter
      (fun x => decide (key x = key r)) = [r] := by
  induction rows with
  | nil => simp
  | cons a as ih =>
      by_cases h : key a = key r
      · simp [h]
      · simp [h]

theorem filter_upsert_ne {α κ : Type} [DecidableEq κ] (key : α → κ) (rows : List α) (r : α)
    (k : κ) (h : key r ≠ k) :
    ((rows.filter (fun x => !(decide (key x = key r)))) ++ [r]).filter
      (fun x => decide (key x = k)) = rows.filter (fun x => decide (key x = k)) := by
  induction rows with
  | nil => simp [h]
  | cons a as ih =>
      by_cases h2 : key a = key r
      · have h3 : ¬(key a = k) := by rw [h2]; exact h
        rw [List.filter_cons_of_neg (by simp [h2]), List.filter_cons_of_neg (by simp [h3])]
        exact ih
      · rw [List.filter_cons_of_pos (by simp [h2]), List.cons_append]
        by_cases h4 : key a = k
        · rw [List.filter_cons_of_pos (by simp [h4]), List.filter_cons_of_pos (by simp [h4]), ih]
        · rw [List.filter_cons_of_neg (by simp [h4]), List.filter_cons_of_neg (by simp [h4])]
          exact ih

theorem upsertAgg_filter_self (rows : List AggRow) (r : AggRow) :
    (upsertAgg rows r).filter (fun x => decide (aggKey x = aggKey r)) = [r] :=
  filter_upsert_self aggKey rows r

theorem upsertDet_filter_self (rows : List DetailRow) (r : DetailRow) :
    (upsertDet rows r).filter (fun x => decide (detKey x = detKey r)) = [r] :=
  filter_upsert_self detKey rows r

theorem upsertDet_filter_ne (rows : List DetailRow) (r : DetailRow)
    (k : String × String × String × ℚ) (h : detKey r ≠ k) :
    (upsertDet rows r).filter (fun x => decide (detKey x = k)) =
      rows.filter (fun x => decide (detKey x = k)) :=
  filter_upsert_ne detKey rows r k h

theorem detKey_detRowOf (s d ts : String) (sd : ℚ × DetailData) :
    detKey (detRowOf s d ts sd) = (s, d, ts, sd.1) := rfl

theorem foldDetails_aggregates (s d ts : String) (dets : List (ℚ × DetailData))
    (db0 : OptionDatabase) :
    (dets.foldl (applyDetail s d ts) db0).option_aggregates = db0.option_aggregates := by
  induction dets generalizing db0 with
  | nil => rfl
  | cons p ps ih => exact (ih _).trans rfl

theorem foldDetails_details (s d ts : String) (dets : List (ℚ × DetailData))
    (db0 : OptionDatabase) :
    (dets.foldl (applyDetail s d ts) db0).option_chain_details
      = dets.foldl (fun rows sd => upsertDet rows (detRowOf s d ts sd))
          db0.option_chain_details := by
  induction dets generalizing db0 with
  | nil => rfl
  | cons p ps ih => exact (ih _).trans rfl

theorem save_snapshot_aggregates (db : OptionDatabase) (s d ts e : String)
    (a : Aggregates) (dets : List (ℚ × DetailData)) :
    (save_snapshot db s d ts e a dets).option_aggregates
      = upsertAgg db.option_aggregates (aggRowOf s d ts e a) := by
  unfold save_snapshot
  exact foldDetails_aggregates s d ts dets _

theorem save_snapshot_details (db : OptionDatabase) (s d ts e : String)
    (a : Aggregates) (dets : List (ℚ × DetailData)) :
    (save_snapshot db s d ts e a dets).option_chain_details
      = dets.foldl (fun rows sd => upsertDet rows (detRowOf s d ts sd))
          db.option_chain_details := by
  unfold save_snapshot
  exact foldDetails_details s d ts dets _

theorem foldUpsertDet_preserve (s d ts : String) (dets : List (ℚ × DetailData))
    (rows : List DetailRow) (k : String × String × String × ℚ)
    (h : ∀ sd ∈ dets, (s, d, ts, sd.1) ≠ k) :
    (dets.foldl (fun rows sd => upsertDet rows (detRowOf s d ts sd)) rows).filter
      (fun x => decide (detKey x = k))
      = rows.filter (fun x => decide (detKey x = k)) := by
  revert h
  induction dets generalizing rows with
  | nil => intro _; rfl
  | cons p ps ih =>
      intro h
      simp only [List.foldl_cons]
      rw [ih (upsertDet rows (detRowOf s d ts p))
        (fun sd hsd => h sd (List.mem_cons_of_mem _ hsd))]
      exact upsertDet_filter_ne rows (detRowOf s d ts p) k
        (by rw [detKey_detRowOf]; exact h p (List.mem_cons_self _ _))

theorem foldUpsertDet_filter_of_mem (s d ts : String) (dets : List (ℚ × DetailData))
    (rows : List DetailRow) (strike : ℚ) (dv : DetailData)
    (hnd : (dets.map Prod.fst).Nodup) (hmem : (strike, dv) ∈ dets) :
    (dets.foldl (fun rows sd => upsertDet rows (detRowOf s d ts sd)) rows).filter
      (fun x => decide (detKey x = (s, d, ts, strike))) = [detRowOf s d ts (strike, dv)] := by
  revert hnd hmem
  induction dets generalizing rows with
  | nil => intro _ hmem; cases hmem
  | cons p ps ih =>
      intro hnd hmem
      simp only [List.map_cons, List.nodup_cons] at hnd
      simp only [List.foldl_cons]
      rcases List.mem_cons.mp hmem with heq | hmem2
      · have hp1 : p.1 = strike := by rw [← heq]
        have hkeys : ∀ sd ∈ ps, (s, d, ts, sd.1) ≠ (s, d, ts, strike) := by
          intro sd hsd hcon
          simp only [Prod.mk.injEq] at hcon
          apply hnd.1
          rw [hp1, ← hcon.2.2.2]
          exact List.mem_map_of_mem _ hsd
        rw [foldUpsertDet_preserve s d ts ps _ _ hkeys, ← heq]
        exact upsertDet_filter_self rows (detRowOf s d ts (strike, dv))
      · exact ih (upsertDet rows (detRowOf s d ts p)) hnd.2 hmem2

theorem foldUpsertDet_append (s d ts : String) (dets : List (ℚ × DetailData))
    (rows : List DetailRow)
    (hnd : (dets.map Prod.fst).Nodup)
    (hfresh : ∀ r ∈ rows, ∀ sd ∈ dets, detKey r ≠ (s, d, ts, sd.1)) :
    dets.foldl (fun rows sd => upsertDet rows (detRowOf s d ts sd)) rows
      = rows ++ dets.map (detRowOf s d ts) := by
  revert hnd hfresh
  induction dets generalizing rows with
  | nil => intro _ _; simp
  | cons p ps ih =>
      intro hnd hfresh
      simp only [List.map_cons, List.nodup_cons] at hnd
      simp only [List.foldl_cons, List.map_cons]
      have h1 : upsertDet rows (detRowOf s d ts p) = rows ++ [detRowOf s d ts p] := by
        unfold upsertDet
        congr 1
        apply List.filter_eq_self.mpr
        intro r hr
        simp only [Bool.not_eq_true', decide_eq_false_iff_not]
        rw [detKey_detRowOf]
        exact hfresh r hr p (List.mem_cons_self _ _)
      have hfresh2 : ∀ r ∈ rows ++ [detRowOf s d ts p], ∀ sd ∈ ps,
          detKey r ≠ (s, d, ts, sd.1) := by
        intro r hr sd hsd
        rcases List.mem_append.mp hr with h2 | h2
        · exact hfresh r h2 sd (List.mem_cons_of_mem _ hsd)
        · simp only [List.mem_singleton] at h2
          subst h2
          rw [detKey_detRowOf]
          intro hcon
          simp only [Prod.mk.injEq] at hcon
          apply hnd.1
          rw [hcon.2.2.2]
          exact List.mem_map_of_mem _ hsd
      rw [h1, ih (rows ++ [detRowOf s d ts p]) hnd.2 hfresh2]
      simp

theorem dtLt_ne {a b : String × String} (h : dtLt a b = true) : a ≠ b := by
  intro hcon
  rw [hcon, dtLt_irrefl] at h
  exact Bool.false_ne_true h

theorem get_latest_chain_eq (db : OptionDatabase) (symbol : String) (r : DetailRow)
    (rs : List DetailRow)
    (h : db.option_chain_details.filter (fun x => x.symbol == symbol) = r :: rs) :
    get_latest_chain db symbol
      = (db.option_chain_details.filter
          (fun x => x.symbol == symbol && x.date == (maxByDT detDT r rs).date
            && x.timestamp == (maxByDT detDT r rs).timestamp)).map entryOfRow := by
  unfold get_latest_chain
  rw [h]

theorem get_latest_chain_save_fresh (db : OptionDatabase) (s d ts e : String)
    (a : Aggregates) (dets : List (ℚ × DetailData))
    (hnd : (dets.map Prod.fst).Nodup)
    (hne : dets ≠ [])
    (hfresh : ∀ r ∈ db.option_chain_details, r.symbol = s →
      dtLt (r.date, r.timestamp) (d, ts) = true) :
    get_latest_chain (save_snapshot db s d ts e a dets) s = dets.map chainEntryOfDetail := by
  have hdet : (save_snapshot db s d ts e a dets).option_chain_details
      = db.option_chain_details ++ dets.map (detRowOf s d ts) := by
    rw [save_snapshot_details]
    apply foldUpsertDet_append s d ts dets _ hnd
    intro r hr sd hsd
    intro hcon
    simp only [detKey, Prod.mk.injEq] at hcon
    by_cases hsym : r.symbol = s
    · exact dtLt_ne (hfresh r hr hsym) (Prod.ext hcon.2.1 hcon.2.2.1)
    · exact hsym hcon.1
  have hnewf : (dets.map (detRowOf s d ts)).filter (fun x => x.symbol == s)
      = dets.map (detRowOf s d ts) := by
    apply List.filter_eq_self.mpr
    intro x hx
    rcases List.mem_map.mp hx with ⟨sd, _, hrow⟩
    rw [← hrow]
    simp [detRowOf]
  have hfl : (save_snapshot db s d ts e a dets).option_chain_details.filter
      (fun x => x.symbol == s)
      = db.option_chain_details.filter (fun x => x.symbol == s)
        ++ dets.map (detRowOf s d ts) := by
    rw [hdet, List.filter_append, hnewf]
  rcases hsplit : db.option_chain_details.filter (fun x => x.symbol == s)
      ++ dets.map (detRowOf s d ts) with _ | ⟨r, rs⟩
  · exfalso
    rcases List.append_eq_nil.mp hsplit with ⟨_, h2⟩
    exact hne (List.map_eq_nil_iff.mp h2)
  · have hchain := get_latest_chain_eq (save_snapshot db s d ts e a dets) s r rs
      (by rw [hfl, hsplit])
    obtain ⟨m, hm⟩ : ∃ m, maxByDT detDT r rs = m := ⟨_, rfl⟩
    rw [hm] at hchain
    obtain ⟨sd0, dets', hdets⟩ : ∃ sd0 dets', dets = sd0 :: dets' := by
      cases dets with
      | nil => exact absurd rfl hne
      | cons x xs => exact ⟨x, xs, rfl⟩
    have hw_mem : detRowOf s d ts sd0 ∈ r :: rs := by
      rw [← hsplit]
      apply List.mem_append_right
      rw [hdets]
      exact List.mem_cons_self _ _
    have hnotlt : dtLt (detDT m) (d, ts) = false := by
      have h3 := maxByDT_not_lt detDT r rs (detRowOf s d ts sd0) hw_mem
      rw [hm] at h3
      exact h3
    have hm_mem : m ∈ r :: rs := hm ▸ maxByDT_mem detDT r rs
    have hmdt : m.date = d ∧ m.timestamp = ts := by
      rw [← hsplit] at hm_mem
      rcases List.mem_append.mp hm_mem with hold | hnew
      · exfalso
        have hmem2 := List.mem_filter.mp hold
        have hsym : m.symbol = s := by simpa using hmem2.2
        have h9 : dtLt (detDT m) (d, ts) = true := hfresh m hmem2.1 hsym
        exact Bool.noConfusion (h9.symm.trans hnotlt)
      · rcases List.mem_map.mp hnew with ⟨sd, _, hrow⟩
        constructor
        · rw [← hrow]; rfl
        · rw [← hrow]; rfl
    rw [hchain, hdet, List.filter_append]
    have hold_nil : db.option_chain_details.filter
        (fun x => x.symbol == s && x.date == m.date && x.timestamp == m.timestamp) = [] := by
      apply List.filter_eq_nil_iff.mpr
      intro x hx
      intro hcon
      simp only [Bool.and_eq_true, beq_iff_eq] at hcon
      have hlt := hfresh x hx hcon.1.1
      have hxy : (x.date, x.timestamp) = (d, ts) := by
        rw [hcon.1.2, hcon.2, hmdt.1, hmdt.2]
      rw [hxy, dtLt_irrefl] at hlt
      exact Bool.false_ne_true hlt
    have hnew_full : (dets.map (detRowOf s d ts)).filter
        (fun x => x.symbol == s && x.date == m.date && x.timestamp == m.timestamp)
        = dets.map (detRowOf s d ts) := by
      apply List.filter_eq_self.mpr
      intro x hx
      rcases List.mem_map.mp hx with ⟨sd, _, hrow⟩
      rw [← hrow]
      simp [detRowOf, hmdt.1, hmdt.2]
    rw [hold_nil, hnew_full, List.nil_append, List.map_map]
    rfl

theorem computePcr_eq (total_put_oi total_call_oi : ℤ) :
    computePcr total_put_oi total_call_oi
      = .ok (if 0 < total_call_oi
          then round2 ((total_put_oi : ℚ) / (total_call_oi : ℚ)) else 1) := by
  by_cases h : 0 < total_call_oi
  · have h0 : ¬((total_call_oi : ℚ) = 0) := by
      intro hc
      rw [Int.cast_eq_zero] at hc
      omega
    simp [computePcr, pydiv, h, h0, Except.map]
  · simp [computePcr, pydiv, h]

/-- C3: for every option snapshot acquisition, the computed (then stored
and returned) put-call ratio is `round(totalPutOI / totalCallOI, 2)`
whenever the total call OI is positive and exactly 1.0 otherwise; the
guarded expression always yields a definite rational — never a raised
`ZeroDivisionError`, NaN or infinity (`.ok` on every input). -/
theorem c3_pcr_guarded_round :
    (∀ total_put_oi total_call_oi : ℤ,
      computePcr total_put_oi total_call_oi
        = .ok (if 0 < total_call_oi
            then round2 ((total_put_oi : ℚ) / (total_call_oi : ℚ)) else 1))
    ∧ (∀ oiData : List (ℚ × StrikeOi),
      mkAggregates oiData
        = .ok ⟨(oiData.map (fun p => p.2.callOi)).sum,
            (oiData.map (fun p => p.2.putOi)).sum,
            if 0 < (oiData.map (fun p => p.2.callOi)).sum
            then round2 ((((oiData.map (fun p => p.2.putOi)).sum : ℤ) : ℚ)
              / (((oiData.map (fun p => p.2.callOi)).sum : ℤ) : ℚ))
            else 1⟩) := by
  constructor
  · exact computePcr_eq
  · intro oiData
    simp only [mkAggregates, computePcr_eq, Except.map]

/-- C10: the inter-bucket suspension is an unguarded division — for every
speed between 1 and 998 the loop appends one sleep of exactly `60/speed`
seconds after every emitted bucket including the last; for every speed at
or above 999 (not only 999 itself) no sleep event occurs; and for speed 0
the first inter-bucket step raises `ZeroDivisionError`, ending the trace
after the first bucket's emissions. -/
theorem c10_sleep_division (eng : BacktestReplayEngine) (bs : List ℕ) (t : ℕ) (ts : List ℕ) :
    (1 ≤ eng.speed → eng.speed ≤ 998 →
      runBuckets eng bs
        = (bs.flatMap (fun u => broadcast_candles eng u ++ broadcast_option_chain eng u
            ++ broadcast_pcr eng u ++ [ReplayEvent.sleep (60 / (eng.speed : ℚ))]), none))
    ∧ (999 ≤ eng.speed →
      runBuckets eng bs
        = (bs.flatMap (fun u => broadcast_candles eng u ++ broadcast_option_chain eng u
            ++ broadcast_pcr eng u), none))
    ∧ (eng.speed = 0 →
      runBuckets eng (t :: ts)
        = (broadcast_candles eng t ++ broadcast_option_chain eng t ++ broadcast_pcr eng t,
           some "ZeroDivisionError")) := by
  refine ⟨fun h1 h2 => ?_, fun h3 => ?_, fun h0 => ?_⟩
  · induction bs with
    | nil => rfl
    | cons u us ih =>
        have hlt : eng.speed < 999 := by omega
        have hne : ¬((eng.speed : ℚ) = 0) := by
          intro hc
          rw [Int.cast_eq_zero] at hc
          omega
        simp only [runBuckets, interBucketSleep, if_pos hlt, pydiv, if_neg hne, Except.map,
          List.flatMap_cons, ih]
  · induction bs with
    | nil => rfl
    | cons u us ih =>
        have hge : ¬(eng.speed < 999) := by omega
        simp only [runBuckets, interBucketSleep, if_neg hge, List.flatMap_cons, ih]
        simp
  · have hlt : eng.speed < 999 := by omega
    have hz : ((eng.speed : ℚ) = 0) := by rw [h0]; norm_num
    simp only [runBuckets, interBucketSleep, if_pos hlt, pydiv, if_pos hz, Except.map]

/-- C1 (code bug): the live bridge and the replay engine do not produce
identically shaped envelopes for every message kind.  Evaluated at one
shared chain payload: both `candle_update` envelopes carry exactly
`{type, data}`, but the live `option_chain` envelope carries
`{type, symbol, timestamp, data}` while the replay one carries only
`{type, symbol, data}` — the `timestamp` key is missing, so the key sets
differ.  (The remaining kinds cannot even be compared: the live bridge
never constructs a `pcr_update` message and the replay engine never
constructs a `market_breadth` one.) -/
theorem c1_option_chain_envelope_divergence :
    topKeys (liveCandleMsg []) = ["type", "data"]
    ∧ topKeys (replayCandleMsg []) = ["type", "data"]
    ∧ topKeys (liveOptionChainMsg "NSE_INDEX|Nifty 50" 1767589500000 [⟨100, 5, 7, 1, 2⟩])
        = ["type", "symbol", "timestamp", "data"]
    ∧ topKeys (replayOptionChainMsg "NIFTY" [⟨100, 5, 7, 1, 2⟩])
        = ["type", "symbol", "data"]
    ∧ topKeys (liveOptionChainMsg "NSE_INDEX|Nifty 50" 1767589500000 [⟨100, 5, 7, 1, 2⟩])
        ≠ topKeys (replayOptionChainMsg "NIFTY" [⟨100, 5, 7, 1, 2⟩]) := by
  refine ⟨rfl, rfl, rfl, rfl, ?_⟩
  decide

/-- C4: upserting the same composite key twice — `(symbol, date,
timeBucket)` for the aggregate row and `(symbol, date, timeBucket, strike)`
for a strike's detail row — leaves exactly one stored row per key, holding
the second call's values, whatever the store held before. -/
theorem c4_upsert_idempotent_overwrite (db : OptionDatabase) (s d ts e1 e2 : String)
    (a1 a2 : Aggregates) (dets1 dets2 : List (ℚ × DetailData)) (strike : ℚ) (dv2 : DetailData)
    (hagg : a1 ≠ a2)
    (hnd2 : (dets2.map Prod.fst).Nodup)
    (hmem : (strike, dv2) ∈ dets2) :
    (save_snapshot (save_snapshot db s d ts e1 a1 dets1) s d ts e2 a2 dets2).option_aggregates.filter
        (fun x => decide (aggKey x = (s, d, ts))) = [aggRowOf s d ts e2 a2]
    ∧ (save_snapshot (save_snapshot db s d ts e1 a1 dets1) s d ts e2 a2
          dets2).option_chain_details.filter
        (fun x => decide (detKey x = (s, d, ts, strike))) = [detRowOf s d ts (strike, dv2)] := by
  constructor
  · rw [save_snapshot_aggregates]
    exact upsertAgg_filter_self (save_snapshot db s d ts e1 a1 dets1).option_aggregates
      (aggRowOf s d ts e2 a2)
  · rw [save_snapshot_details]
    exact foldUpsertDet_filter_of_mem s d ts dets2 _ strike dv2 hnd2 hmem

/-- C4 witness: two saves of the key (`"NIFTY"`, `"2026-01-05"`, `"09:15"`)
(strike 100 for the detail row) with different values leave exactly the
second row. -/
theorem c4_witness :
    (save_snapshot (save_snapshot ⟨[], []⟩ "NIFTY" "2026-01-05" "09:15" "E1" ⟨1, 1, 1⟩
        [(100, ⟨1, 1, 0, 0⟩)]) "NIFTY" "2026-01-05" "09:15" "E2" ⟨2, 3, 1⟩
        [(100, ⟨5, 6, 1, 1⟩)]).option_aggregates.filter
        (fun x => decide (aggKey x = ("NIFTY", "2026-01-05", "09:15")))
      = [aggRowOf "NIFTY" "2026-01-05" "09:15" "E2" ⟨2, 3, 1⟩]
    ∧ (save_snapshot (save_snapshot ⟨[], []⟩ "NIFTY" "2026-01-05" "09:15" "E1" ⟨1, 1, 1⟩
        [(100, ⟨1, 1, 0, 0⟩)]) "NIFTY" "2026-01-05" "09:15" "E2" ⟨2, 3, 1⟩
        [(100, ⟨5, 6, 1, 1⟩)]).option_chain_details.filter
        (fun x => decide (detKey x = ("NIFTY", "2026-01-05", "09:15", 100)))
      = [detRowOf "NIFTY" "2026-01-05" "09:15" (100, ⟨5, 6, 1, 1⟩)] :=
  c4_upsert_idempotent_overwrite ⟨[], []⟩ "NIFTY" "2026-01-05" "09:15" "E1" "E2"
    ⟨1, 1, 1⟩ ⟨2, 3, 1⟩ [(100, ⟨1, 1, 0, 0⟩)] [(100, ⟨5, 6, 1, 1⟩)] 100 ⟨5, 6, 1, 1⟩
    (by decide) (by decide) (by decide)

/-- C8 counterexample: with the catalog download raising and no disk
cache, `initialize` re-raises the download exception (`raise e`) instead
of merely reporting failure, and a subsequent `get_upstox_key` — which
lazily re-attempts initialization — propagates that exception instead of
returning `None`. -/
theorem c8_counterexample :
    initSymbolMaster ⟨.error "ConnectionError", none, fun _ => none⟩
        = .error "ConnectionError"
    ∧ get_upstox_key ⟨false, emptyMappings⟩ ⟨.error "ConnectionError", none, fun _ => none⟩
        "RELIANCE" = .error "ConnectionError"
    ∧ get_upstox_key ⟨false, emptyMappings⟩ ⟨.error "ConnectionError", none, fun _ => none⟩
        "RELIANCE" ≠ .ok none := by
  refine ⟨rfl, rfl, ?_⟩
  intro h
  rw [show get_upstox_key ⟨false, emptyMappings⟩
      ⟨.error "ConnectionError", none, fun _ => none⟩ "RELIANCE"
      = .error "ConnectionError" from rfl] at h
  exact Except.noConfusion h

/-- C8 amended: when both the catalog download and the disk-cache load
fail, initialization raises the download's exception (as its docstring
documents) rather than reporting failure quietly, and every subsequent
resolve call on the still-uninitialized instance re-attempts
initialization and propagates that same exception instead of returning
`None`; resolution can only start returning `None` once a retry obtains
content. -/
theorem c8_amended_raises (env : ResolverEnv) (st : ResolverState) (symbol msg : String)
    (hdl : env.download = .error msg) (hcache : env.cacheFile = none)
    (hst : st.isInit = false) :
    initSymbolMaster env = .error msg
    ∧ get_upstox_key st env symbol = .error msg := by
  have h1 : initSymbolMaster env = .error msg := by
    unfold initSymbolMaster
    rw [hdl, hcache]
  refine ⟨h1, ?_⟩
  unfold get_upstox_key
  rw [hst]
  simp only [Bool.false_eq_true, if_false, h1]

/-- C8 witness: the amended behaviour at a concrete failing environment. -/
theorem c8_witness :
    initSymbolMaster ⟨.error "timeout", none, fun _ => none⟩ = .error "timeout"
    ∧ get_upstox_key ⟨false, emptyMappings⟩ ⟨.error "timeout", none, fun _ => none⟩
        "SBIN" = .error "timeout" :=
  c8_amended_raises ⟨.error "timeout", none, fun _ => none⟩ ⟨false, emptyMappings⟩
    "SBIN" "timeout" rfl rfl rfl

/-- C7 counterexample: with every tier failing because the Trendlyne
stock-id lookup itself fails, `fetch_live_snapshot` returns an empty
chain even though the Snapshot Store holds a last known value — it does
not return that stored value. -/
theorem c7_counterexample :
    fetch_live_snapshot ⟨[], [⟨"NIFTY", "2026-01-05", "09:15", 100, 5, 7, 1, 2⟩]⟩ "NIFTY"
        ⟨false, none, none, none, none, none, "2026-01-05", "10:00"⟩
        ⟨none, none, false, none, none, "2026-01-05", "10:00"⟩
      = (⟨[], [⟨"NIFTY", "2026-01-05", "09:15", 100, 5, 7, 1, 2⟩]⟩, [])
    ∧ get_latest_chain ⟨[], [⟨"NIFTY", "2026-01-05", "09:15", 100, 5, 7, 1, 2⟩]⟩ "NIFTY"
        = [⟨100, 5, 7, 1, 2⟩]
    ∧ ([] : List ChainEntry) ≠ [⟨100, 5, 7, 1, 2⟩] := by
  refine ⟨rfl, rfl, ?_⟩
  intro h
  exact List.noConfusion h

/-- C7 amended: when every tier fails the candle fetch returns an empty
list and never lets a tier's exception escape; the option-chain/PCR fetch
returns the store's last known value when the failure comes after a
successful stock-id lookup (expiry resolution or the data request
failing), but returns an empty list — not the last known value — when the
stock-id lookup itself fails. -/
theorem c7_total_failure_fallbacks (cenv : CandleFetchEnv) (db : OptionDatabase)
    (symbol : String) (uenv : UpstoxEnv) (tenv : TrendlyneEnv) :
    ((cenv.upstox_enabled = false ∨ (∃ m, cenv.upstox_result = .error m)
        ∨ cenv.upstox_result = .ok [])
      → (∃ m, cenv.tv_premium = .error m)
      → (∃ m, cenv.tv_public = .error m)
      → (∃ m, cenv.yahoo = .error m)
      → fetch_candles cenv = [])
    ∧ (fetch_live_snapshot_upstox db symbol uenv = none →
        tenv.stock_id = none →
        fetch_live_snapshot db symbol uenv tenv = (db, []))
    ∧ (fetch_live_snapshot_upstox db symbol uenv = none →
        (∃ sid, tenv.stock_id = some sid) →
        (resolveTrendlyneExpiry tenv = none ∨ tenv.response = none) →
        fetch_live_snapshot db symbol uenv tenv = (db, get_latest_chain db symbol)) := by
  refine ⟨fun hu h1 h2 h3 => ?_, fun hu hsid => ?_, fun hu hsid hfail => ?_⟩
  · rcases h1 with ⟨m1, h1⟩
    rcases h2 with ⟨m2, h2⟩
    rcases h3 with ⟨m3, h3⟩
    unfold fetch_candles
    rcases hu with h0 | ⟨m0, h0⟩ | h0 <;> simp [h0, h1, h2, h3]
  · unfold fetch_live_snapshot
    rw [hu]
    unfold trendlyneTier
    rw [hsid]
  · rcases hsid with ⟨sid, hsid⟩
    unfold fetch_live_snapshot
    rw [hu]
    unfold trendlyneTier
    rw [hsid]
    rcases hfail with hf | hf
    · rw [hf]
    · cases hre : resolveTrendlyneExpiry tenv with
      | none => rfl
      | some e =>
          rw [hf]
          rfl

/-- C7 witness: the amended behaviour at concrete failing environments —
all candle tiers raising yields `[]`; a total option failure after a
successful stock-id lookup yields the store's latest chain; a stock-id
failure yields `[]`. -/
theorem c7_witness :
    fetch_candles ⟨true, .error "u", .error "tv1", .error "tv2", .error "y"⟩ = []
    ∧ fetch_live_snapshot ⟨[], []⟩ "NIFTY"
        ⟨false, none, none, none, none, none, "2026-01-05", "10:00"⟩
        ⟨none, none, false, none, none, "2026-01-05", "10:00"⟩ = (⟨[], []⟩, [])
    ∧ fetch_live_snapshot ⟨[], [⟨"NIFTY", "2026-01-05", "09:15", 100, 5, 7, 1, 2⟩]⟩ "NIFTY"
        ⟨false, none, none, none, none, none, "2026-01-05", "10:00"⟩
        ⟨some 1, none, false, none, none, "2026-01-05", "10:00"⟩
      = (⟨[], [⟨"NIFTY", "2026-01-05", "09:15", 100, 5, 7, 1, 2⟩]⟩,
         get_latest_chain ⟨[], [⟨"NIFTY", "2026-01-05", "09:15", 100, 5, 7, 1, 2⟩]⟩ "NIFTY") :=
  ⟨(c7_total_failure_fallbacks ⟨true, .error "u", .error "tv1", .error "tv2", .error "y"⟩
      ⟨[], []⟩ "NIFTY"
      ⟨false, none, none, none, none, none, "2026-01-05", "10:00"⟩
      ⟨none, none, false, none, none, "2026-01-05", "10:00"⟩).1
      (Or.inr (Or.inl ⟨"u", rfl⟩)) ⟨"tv1", rfl⟩ ⟨"tv2", rfl⟩ ⟨"y", rfl⟩,
   (c7_total_failure_fallbacks ⟨true, .error "u", .error "tv1", .error "tv2", .error "y"⟩
      ⟨[], []⟩ "NIFTY"
      ⟨false, none, none, none, none, none, "2026-01-05", "10:00"⟩
      ⟨none, none, false, none, none, "2026-01-05", "10:00"⟩).2.1 rfl rfl,
   (c7_total_failure_fallbacks ⟨true, .error "u", .error "tv1", .error "tv2", .error "y"⟩
      ⟨[], [⟨"NIFTY", "2026-01-05", "09:15", 100, 5, 7, 1, 2⟩]⟩ "NIFTY"
      ⟨false, none, none, none, none, none, "2026-01-05", "10:00"⟩
      ⟨some 1, none, false, none, none, "2026-01-05", "10:00"⟩).2.2 rfl
      ⟨1, rfl⟩ (Or.inl rfl)⟩

theorem candleBuckets_append (l1 l2 : List ReplayEvent) :
    candleBuckets (l1 ++ l2) = candleBuckets l1 ++ candleBuckets l2 :=
  List.filterMap_append l1 l2 _

theorem candleBuckets_broadcast_candles (eng : BacktestReplayEngine) (t : ℕ)
    (hcli : eng.hasClients = true) :
    candleBuckets (broadcast_candles eng t)
      = if (lookupBucket eng.candle_data t).isSome then [t] else [] := by
  unfold broadcast_candles
  cases h : lookupBucket eng.candle_data t <;> simp [h, hcli, candleBuckets]

theorem candleBuckets_broadcast_option_chain (eng : BacktestReplayEngine) (t : ℕ) :
    candleBuckets (broadcast_option_chain eng t) = [] := by
  unfold broadcast_option_chain
  cases h1 : _get_option_chain eng.db "NIFTY" t <;>
    cases h2 : _get_option_chain eng.db "BANKNIFTY" t <;>
      cases hc : eng.hasClients <;>
        simp [h1, h2, hc, candleBuckets]

theorem candleBuckets_broadcast_pcr (eng : BacktestReplayEngine) (t : ℕ) :
    candleBuckets (broadcast_pcr eng t) = [] := by
  unfold broadcast_pcr
  cases hc : eng.hasClients <;> simp [hc, candleBuckets]

theorem runBuckets_snd_ok (eng : BacktestReplayEngine) (bs : List ℕ)
    (sl : List ReplayEvent) (hsl : interBucketSleep eng.speed = .ok sl) :
    (runBuckets eng bs).2 = none := by
  induction bs with
  | nil => rfl
  | cons t ts ih => simp [runBuckets, hsl, ih]

theorem candleBuckets_runBuckets (eng : BacktestReplayEngine) (bs : List ℕ)
    (hsl : interBucketSleep eng.speed = .ok [])
    (hcli : eng.hasClients = true) :
    candleBuckets (runBuckets eng bs).1
      = bs.filter (fun t => (lookupBucket eng.candle_data t).isSome) := by
  induction bs with
  | nil => rfl
  | cons t ts ih =>
      simp only [runBuckets, hsl]
      rw [List.filter_cons]
      rw [show (broadcast_candles eng t ++ broadcast_option_chain eng t ++ broadcast_pcr eng t
          ++ [] ++ (runBuckets eng ts).1 : List ReplayEvent)
        = broadcast_candles eng t ++ (broadcast_option_chain eng t
            ++ (broadcast_pcr eng t ++ ([] ++ (runBuckets eng ts).1))) from by
          simp [List.append_assoc]]
      rw [candleBuckets_append, candleBuckets_append, candleBuckets_append,
        candleBuckets_append, candleBuckets_broadcast_candles eng t hcli,
        candleBuckets_broadcast_option_chain, candleBuckets_broadcast_pcr, ih]
      cases h : (lookupBucket eng.candle_data t).isSome <;> simp [candleBuckets]

theorem no_sleep_broadcast_candles (eng : BacktestReplayEngine) (t : ℕ) :
    (broadcast_candles eng t).all (fun ev => !isSleepEvent ev) = true := by
  unfold broadcast_candles
  cases h : lookupBucket eng.candle_data t <;> cases hc : eng.hasClients <;>
    simp [isSleepEvent]

theorem no_sleep_broadcast_option_chain (eng : BacktestReplayEngine) (t : ℕ) :
    (broadcast_option_chain eng t).all (fun ev => !isSleepEvent ev) = true := by
  unfold broadcast_option_chain
  cases h1 : _get_option_chain eng.db "NIFTY" t <;>
    cases h2 : _get_option_chain eng.db "BANKNIFTY" t <;>
      cases hc : eng.hasClients <;>
        simp [h1, h2, hc, isSleepEvent]

theorem no_sleep_broadcast_pcr (eng : BacktestReplayEngine) (t : ℕ) :
    (broadcast_pcr eng t).all (fun ev => !isSleepEvent ev) = true := by
  unfold broadcast_pcr
  cases hc : eng.hasClients <;> simp [isSleepEvent]

theorem runBuckets_no_sleep (eng : BacktestReplayEngine) (bs : List ℕ)
    (hsl : interBucketSleep eng.speed = .ok []) :
    (runBuckets eng bs).1.all (fun ev => !isSleepEvent ev) = true := by
  induction bs with
  | nil => rfl
  | cons t ts ih =>
      simp only [runBuckets, hsl]
      simp only [List.all_append, List.all_nil, Bool.and_eq_true]
      refine ⟨⟨⟨⟨?_, ?_⟩, ?_⟩, ?_⟩, ?_⟩
      · exact no_sleep_broadcast_candles eng t
      · exact no_sleep_broadcast_option_chain eng t
      · exact no_sleep_broadcast_pcr eng t
      · trivial
      · exact ih

/-- C2: for a replay of 2026-01-05 (epoch day 20458) from 09:15 (minute
555) to 09:20 (minute 560) at speed 999 with a subscriber connected and
candle data recorded at each of the six minutes, the loop completes
without error, emits exactly 6 `candle_update` messages — one per minute
bucket, in strictly ascending time order — with no sleep event anywhere in
the playback trace, and the server trace shows the subscriber connection
strictly before any emission. -/
theorem c2_replay_scenario (eng : BacktestReplayEngine)
    (hdate : eng.target_day = 20458)
    (hs : eng.start_time = 555) (he : eng.end_time = 560)
    (hspeed : eng.speed = 999) (hcli : eng.hasClients = true)
    (hdata : ∀ t, 555 ≤ t → t ≤ 560 → (lookupBucket eng.candle_data t).isSome = true) :
    (replay_loop eng).2 = none
    ∧ candleBuckets (replay_loop eng).1 = [555, 556, 557, 558, 559, 560]
    ∧ (candleBuckets (replay_loop eng).1).length = 6
    ∧ List.Chain' (· < ·) (candleBuckets (replay_loop eng).1)
    ∧ (replay_loop eng).1.all (fun ev => !isSleepEvent ev) = true
    ∧ (start_server eng).1
        = ReplayEvent.clientConnected :: ReplayEvent.sleep 2 :: (replay_loop eng).1 := by
  have hsl : interBucketSleep eng.speed = .ok [] := by
    rw [hspeed]; rfl
  have hbl : bucketList eng.start_time eng.end_time = [555, 556, 557, 558, 559, 560] := by
    rw [hs, he]; rfl
  have hcb : candleBuckets (replay_loop eng).1 = [555, 556, 557, 558, 559, 560] := by
    unfold replay_loop
    rw [hbl, candleBuckets_runBuckets eng _ hsl hcli]
    apply List.filter_eq_self.mpr
    intro t ht
    fin_cases ht <;> exact hdata _ (by omega) (by omega)
  refine ⟨?_, hcb, ?_, ?_, ?_, rfl⟩
  · unfold replay_loop
    exact runBuckets_snd_ok eng _ [] hsl
  · rw [hcb]
    rfl
  · rw [hcb]
    norm_num [List.chain'_cons]
  · unfold replay_loop
    exact runBuckets_no_sleep eng _ hsl

/-- C2 witness: the scenario at a concrete engine holding one recorded
candle row for each of the six minutes 09:15..09:20. -/
theorem c2_witness :
    (replay_loop ⟨20458, 999, 555, 560,
        [(555, [⟨"RELIANCE", 100, 101, 99, 100, 1000, "upstox"⟩]),
         (556, [⟨"RELIANCE", 100, 101, 99, 100, 1000, "upstox"⟩]),
         (557, [⟨"RELIANCE", 100, 101, 99, 100, 1000, "upstox"⟩]),
         (558, [⟨"RELIANCE", 100, 101, 99, 100, 1000, "upstox"⟩]),
         (559, [⟨"RELIANCE", 100, 101, 99, 100, 1000, "upstox"⟩]),
         (560, [⟨"RELIANCE", 100, 101, 99, 100, 1000, "upstox"⟩])], ⟨[], []⟩, true⟩).2 = none
    ∧ candleBuckets (replay_loop ⟨20458, 999, 555, 560,
        [(555, [⟨"RELIANCE", 100, 101, 99, 100, 1000, "upstox"⟩]),
         (556, [⟨"RELIANCE", 100, 101, 99, 100, 1000, "upstox"⟩]),
         (557, [⟨"RELIANCE", 100, 101, 99, 100, 1000, "upstox"⟩]),
         (558, [⟨"RELIANCE", 100, 101, 99, 100, 1000, "upstox"⟩]),
         (559, [⟨"RELIANCE", 100, 101, 99, 100, 1000, "upstox"⟩]),
         (560, [⟨"RELIANCE", 100, 101, 99, 100, 1000, "upstox"⟩])], ⟨[], []⟩, true⟩).1
        = [555, 556, 557, 558, 559, 560] :=
  ⟨(c2_replay_scenario _ rfl rfl rfl rfl rfl
      (by intro t h1 h2; interval_cases t <;> decide)).1,
   (c2_replay_scenario _ rfl rfl rfl rfl rfl
      (by intro t h1 h2; interval_cases t <;> decide)).2.1⟩

/-- C9 counterexample: the store records snapshots at 09:15 and 15:30; at
replay minute 09:16 (which has no recorded aggregate, with 09:15 as the
most recent prior snapshot) the engine emits the 15:30 values — the
globally latest, a look-ahead — not the 09:15 carry-forward the claim
requires, for both the chain and the PCR. -/
theorem c9_counterexample :
    _get_option_chain ⟨[⟨"NIFTY", "2026-01-05", "09:15", "E", 10, 20, 2⟩,
          ⟨"NIFTY", "2026-01-05", "15:30", "E", 30, 30, 1⟩],
         [⟨"NIFTY", "2026-01-05", "09:15", 100, 5, 7, 1, 2⟩,
          ⟨"NIFTY", "2026-01-05", "15:30", 100, 9, 9, 0, 0⟩]⟩ "NIFTY" 556
      = [⟨100, 9, 9, 0, 0⟩]
    ∧ chain_at_or_before ⟨[⟨"NIFTY", "2026-01-05", "09:15", "E", 10, 20, 2⟩,
          ⟨"NIFTY", "2026-01-05", "15:30", "E", 30, 30, 1⟩],
         [⟨"NIFTY", "2026-01-05", "09:15", 100, 5, 7, 1, 2⟩,
          ⟨"NIFTY", "2026-01-05", "15:30", 100, 9, 9, 0, 0⟩]⟩ "NIFTY" ("2026-01-05", "09:16")
      = [⟨100, 5, 7, 1, 2⟩]
    ∧ _get_pcr ⟨[⟨"NIFTY", "2026-01-05", "09:15", "E", 10, 20, 2⟩,
          ⟨"NIFTY", "2026-01-05", "15:30", "E", 30, 30, 1⟩],
         [⟨"NIFTY", "2026-01-05", "09:15", 100, 5, 7, 1, 2⟩,
          ⟨"NIFTY", "2026-01-05", "15:30", 100, 9, 9, 0, 0⟩]⟩ "NIFTY" = 1
    ∧ pcr_at_or_before ⟨[⟨"NIFTY", "2026-01-05", "09:15", "E", 10, 20, 2⟩,
          ⟨"NIFTY", "2026-01-05", "15:30", "E", 30, 30, 1⟩],
         [⟨"NIFTY", "2026-01-05", "09:15", 100, 5, 7, 1, 2⟩,
          ⟨"NIFTY", "2026-01-05", "15:30", 100, 9, 9, 0, 0⟩]⟩ "NIFTY"
        ("2026-01-05", "09:16") = 2
    ∧ ([⟨100, 9, 9, 0, 0⟩] : List ChainEntry) ≠ [⟨100, 5, 7, 1, 2⟩]
    ∧ (1 : ℚ) ≠ 2 := by
  refine ⟨?_, ?_, ?_, ?_, ?_, ?_⟩ <;> decide

/-- C9 amended: the replay engine's per-minute option lookups ignore the
replay clock and return the store's globally latest snapshot; this equals
the spec's most-recent-prior carry-forward — and the emitted chain is
non-empty — provided the store holds no snapshot recorded after the
replay cutoff (and, for non-emptiness, at least one prior snapshot
exists).  The counterexample shows the look-ahead divergence when a later
snapshot exists. -/
theorem c9_carry_forward_when_no_lookahead (db : OptionDatabase) (symbol : String)
    (cutD cutT : String) (t : ℕ)
    (hdet : ∀ r ∈ db.option_chain_details, r.symbol = symbol →
        dtLt (cutD, cutT) (detDT r) = false)
    (hagg : ∀ r ∈ db.option_aggregates, r.symbol = symbol →
        dtLt (cutD, cutT) (aggDT r) = false)
    (hprior : ∃ r ∈ db.option_chain_details, r.symbol = symbol) :
    _get_option_chain db symbol t = chain_at_or_before db symbol (cutD, cutT)
    ∧ _get_option_chain db symbol t ≠ []
    ∧ _get_pcr db symbol = pcr_at_or_before db symbol (cutD, cutT) := by
  have hfe : db.option_chain_details.filter
        (fun r => r.symbol == symbol && dtLe (detDT r) (cutD, cutT))
      = db.option_chain_details.filter (fun r => r.symbol == symbol) := by
    apply List.filter_congr
    intro x hx
    by_cases hsym : x.symbol = symbol
    · have hb : (x.symbol == symbol) = true := beq_iff_eq.mpr hsym
      simp [hb, dtLe, hdet x hx hsym]
    · have hb : (x.symbol == symbol) = false := beq_eq_false_iff_ne.mpr hsym
      simp [hb]
  have hfa : db.option_aggregates.filter
        (fun r => r.symbol == symbol && dtLe (aggDT r) (cutD, cutT))
      = db.option_aggregates.filter (fun r => r.symbol == symbol) := by
    apply List.filter_congr
    intro x hx
    by_cases hsym : x.symbol = symbol
    · have hb : (x.symbol == symbol) = true := beq_iff_eq.mpr hsym
      simp [hb, dtLe, hagg x hx hsym]
    · have hb : (x.symbol == symbol) = false := beq_eq_false_iff_ne.mpr hsym
      simp [hb]
  refine ⟨?_, ?_, ?_⟩
  · unfold _get_option_chain get_latest_chain chain_at_or_before
    rw [hfe]
    cases h : db.option_chain_details.filter (fun r => r.symbol == symbol) with
    | nil => rfl
    | cons r rs =>
        show (db.option_chain_details.filter
            (fun x => x.symbol == symbol && x.date == (maxByDT detDT r rs).date
              && x.timestamp == (maxByDT detDT r rs).timestamp)).map entryOfRow
          = (db.option_chain_details.filter
            (fun x => x.symbol == symbol && dtLe (detDT x) (cutD, cutT)
              && x.date == (maxByDT detDT r rs).date
              && x.timestamp == (maxByDT detDT r rs).timestamp)).map entryOfRow
        congr 1
        apply List.filter_congr
        intro x hx
        by_cases hsym : x.symbol = symbol
        · have hb : (x.symbol == symbol) = true := beq_iff_eq.mpr hsym
          simp [hb, dtLe, hdet x hx hsym, Bool.and_assoc]
        · have hb : (x.symbol == symbol) = false := beq_eq_false_iff_ne.mpr hsym
          simp [hb]
  · unfold _get_option_chain get_latest_chain
    rcases hprior with ⟨r0, hr0, hr0sym⟩
    have hr0f : r0 ∈ db.option_chain_details.filter (fun r => r.symbol == symbol) :=
      List.mem_filter.mpr ⟨hr0, beq_iff_eq.mpr hr0sym⟩
    cases h : db.option_chain_details.filter (fun r => r.symbol == symbol) with
    | nil => rw [h] at hr0f; cases hr0f
    | cons r rs =>
        have hm_mem : maxByDT detDT r rs ∈ r :: rs := maxByDT_mem detDT r rs
        rw [← h] at hm_mem
        have hm2 := List.mem_filter.mp hm_mem
        apply List.ne_nil_of_mem
        show entryOfRow (maxByDT detDT r rs) ∈ _
        apply List.mem_map_of_mem
        apply List.mem_filter.mpr
        refine ⟨hm2.1, ?_⟩
        simp [hm2.2]
  · unfold _get_pcr pcr_at_or_before get_latest_aggregates agg_at_or_before
    rw [hfa]

/-- C9 witness: the amended equivalence at a store whose only snapshot
(09:15) lies before the replay cutoff 09:16. -/
theorem c9_witness :
    _get_option_chain ⟨[⟨"NIFTY", "2026-01-05", "09:15", "E", 10, 20, 2⟩],
        [⟨"NIFTY", "2026-01-05", "09:15", 100, 5, 7, 1, 2⟩]⟩ "NIFTY" 556
      = chain_at_or_before ⟨[⟨"NIFTY", "2026-01-05", "09:15", "E", 10, 20, 2⟩],
        [⟨"NIFTY", "2026-01-05", "09:15", 100, 5, 7, 1, 2⟩]⟩ "NIFTY" ("2026-01-05", "09:16")
    ∧ _get_option_chain ⟨[⟨"NIFTY", "2026-01-05", "09:15", "E", 10, 20, 2⟩],
        [⟨"NIFTY", "2026-01-05", "09:15", 100, 5, 7, 1, 2⟩]⟩ "NIFTY" 556 ≠ []
    ∧ _get_pcr ⟨[⟨"NIFTY", "2026-01-05", "09:15", "E", 10, 20, 2⟩],
        [⟨"NIFTY", "2026-01-05", "09:15", 100, 5, 7, 1, 2⟩]⟩ "NIFTY"
      = pcr_at_or_before ⟨[⟨"NIFTY", "2026-01-05", "09:15", "E", 10, 20, 2⟩],
        [⟨"NIFTY", "2026-01-05", "09:15", 100, 5, 7, 1, 2⟩]⟩ "NIFTY" ("2026-01-05", "09:16") :=
  c9_carry_forward_when_no_lookahead
    ⟨[⟨"NIFTY", "2026-01-05", "09:15", "E", 10, 20, 2⟩],
     [⟨"NIFTY", "2026-01-05", "09:15", 100, 5, 7, 1, 2⟩]⟩ "NIFTY" "2026-01-05" "09:16" 556
    (by decide) (by decide) (by decide)

theorem mkAggregates_eq (oiData : List (ℚ × StrikeOi)) :
    mkAggregates oiData = .ok ⟨(oiData.map (fun p => p.2.callOi)).sum,
      (oiData.map (fun p => p.2.putOi)).sum,
      if 0 < (oiData.map (fun p => p.2.callOi)).sum
      then round2 ((((oiData.map (fun p => p.2.putOi)).sum : ℤ) : ℚ)
        / (((oiData.map (fun p => p.2.callOi)).sum : ℤ) : ℚ))
      else 1⟩ := by
  simp only [mkAggregates, computePcr_eq, Except.map]

theorem detailsOf_keys (oiData : List (ℚ × StrikeOi)) :
    (detailsOf oiData).map Prod.fst = oiData.map Prod.fst := by
  induction oiData with
  | nil => rfl
  | cons p ps ih =>
      simp only [detailsOf, List.map_cons] at ih ⊢
      rw [ih]

theorem detailsOf_ne_nil (oiData : List (ℚ × StrikeOi)) (h : oiData ≠ []) :
    detailsOf oiData ≠ [] := by
  cases oiData with
  | nil => exact absurd rfl h
  | cons p ps => intro hc; exact List.noConfusion hc

/-- C6: when the primary (Upstox) option-chain tier reaches its payload
and finds the total call and put OI both zero, it is treated as an
acquisition failure (`return None` before any save) and the orchestrated
fetch returns the Trendlyne tier's valid non-zero chain — freshly saved
and re-read as the store's latest — not the all-zero payload. -/
theorem c6_all_zero_tier_rejected (db : OptionDatabase) (symbol : String)
    (uenv : UpstoxEnv) (tenv : TrendlyneEnv) (items : List UpstoxChainItem) (r : TrendlyneResp)
    (hsdk : uenv.sdk_available = true)
    (hmk : ∃ mk, uenv.master_key = some mk)
    (huexp : ∃ ue, uenv.cached_expiry = some ue)
    (hresp : uenv.response = some items)
    (hzero : (items.map upstoxCallOi).sum = 0 ∧ (items.map upstoxPutOi).sum = 0)
    (hsid : ∃ sid, tenv.stock_id = some sid)
    (hexp : ∃ ex, resolveTrendlyneExpiry tenv = some ex)
    (htresp : tenv.response = some r)
    (hedl : r.expDateList ≠ some [])
    (hnz : ¬((r.oiData.map (fun p => p.2.callOi)).sum = 0
      ∧ (r.oiData.map (fun p => p.2.putOi)).sum = 0))
    (hnd : (r.oiData.map Prod.fst).Nodup)
    (hfresh : ∀ x ∈ db.option_chain_details, x.symbol = symbol →
      dtLt (x.date, x.timestamp) (r.tradingDate.getD tenv.nowDate, tenv.nowTime) = true) :
    (fetch_live_snapshot db symbol uenv tenv).2 = (detailsOf r.oiData).map chainEntryOfDetail
    ∧ ∃ en ∈ (fetch_live_snapshot db symbol uenv tenv).2,
        en.call_oi ≠ 0 ∨ en.put_oi ≠ 0 := by
  rcases hexp with ⟨ex, hex⟩
  have hik : ∃ ik, upstoxInstrumentKey symbol uenv = some ik := by
    rcases hmk with ⟨mk, hmk⟩
    unfold upstoxInstrumentKey
    cases h1 : symbol == "NIFTY" <;> cases h2 : symbol == "BANKNIFTY" <;> simp [hmk]
  have h1 : fetch_live_snapshot_upstox db symbol uenv = none := by
    rcases hik with ⟨ik, hik⟩
    rcases huexp with ⟨ue, hue⟩
    have hux : upstoxExpiry uenv = some ue := by unfold upstoxExpiry; rw [hue]
    unfold fetch_live_snapshot_upstox
    rw [hsdk]
    simp only [Bool.not_true, Bool.false_eq_true, if_false, hik, hux, hresp]
    cases items with
    | nil => rfl
    | cons i is =>
        show upstoxParseAndSave db symbol ue uenv (i :: is) = none
        unfold upstoxParseAndSave
        rw [if_pos hzero]
  obtain ⟨e2, he2⟩ : ∃ e2, backfillExpiry ex r.expDateList = some e2 := by
    unfold backfillExpiry
    cases hl : r.expDateList with
    | none => exact ⟨ex, rfl⟩
    | some l =>
        cases l with
        | nil => exact absurd hl hedl
        | cons a as => exact ⟨a, rfl⟩
  have hbf : backfill_from_trendlyne db symbol ex tenv.nowTime tenv.nowDate tenv.response
      = (save_snapshot db symbol (r.tradingDate.getD tenv.nowDate) tenv.nowTime e2
          ⟨(r.oiData.map (fun p => p.2.callOi)).sum, (r.oiData.map (fun p => p.2.putOi)).sum,
           if 0 < (r.oiData.map (fun p => p.2.callOi)).sum
           then round2 ((((r.oiData.map (fun p => p.2.putOi)).sum : ℤ) : ℚ)
             / (((r.oiData.map (fun p => p.2.callOi)).sum : ℤ) : ℚ))
           else 1⟩
          (detailsOf r.oiData), true) := by
    unfold backfill_from_trendlyne
    rw [htresp]
    simp only [he2, mkAggregates_eq]
  have h2 : fetch_live_snapshot db symbol uenv tenv
      = ((backfill_from_trendlyne db symbol ex tenv.nowTime tenv.nowDate tenv.response).1,
         get_latest_chain (backfill_from_trendlyne db symbol ex tenv.nowTime tenv.nowDate
           tenv.response).1 symbol) := by
    unfold fetch_live_snapshot
    rw [h1]
    unfold trendlyneTier
    rcases hsid with ⟨sid, hsid⟩
    rw [hsid, hex]
  have hne : r.oiData ≠ [] := by
    intro hnil
    rw [hnil] at hnz
    exact hnz ⟨rfl, rfl⟩
  have hnd2 : ((detailsOf r.oiData).map Prod.fst).Nodup := by
    rw [detailsOf_keys]
    exact hnd
  have hlatest : get_latest_chain (backfill_from_trendlyne db symbol ex tenv.nowTime
      tenv.nowDate tenv.response).1 symbol = (detailsOf r.oiData).map chainEntryOfDetail := by
    rw [hbf]
    exact get_latest_chain_save_fresh db symbol (r.tradingDate.getD tenv.nowDate)
      tenv.nowTime e2 _ (detailsOf r.oiData) hnd2 (detailsOf_ne_nil _ hne) hfresh
  have hsnd : (fetch_live_snapshot db symbol uenv tenv).2
      = (detailsOf r.oiData).map chainEntryOfDetail := by
    rw [h2]
    exact hlatest
  refine ⟨hsnd, ?_⟩
  have hp : ∃ p ∈ r.oiData, p.2.callOi ≠ 0 ∨ p.2.putOi ≠ 0 := by
    by_contra hall
    push_neg at hall
    apply hnz
    constructor
    · apply List.sum_eq_zero
      intro x hx
      rcases List.mem_map.mp hx with ⟨p, hpmem, hpe⟩
      rw [← hpe]
      exact (hall p hpmem).1
    · apply List.sum_eq_zero
      intro x hx
      rcases List.mem_map.mp hx with ⟨p, hpmem, hpe⟩
      rw [← hpe]
      exact (hall p hpmem).2
  rcases hp with ⟨p, hpmem, hpne⟩
  refine ⟨chainEntryOfDetail (p.1, ⟨p.2.callOi, p.2.putOi, p.2.callOiChange, p.2.putOiChange⟩),
    ?_, ?_⟩
  · rw [hsnd]
    apply List.mem_map_of_mem
    unfold detailsOf
    exact List.mem_map_of_mem _ hpmem
  · exact hpne

/-- C6 witness: tier 1 reaches a one-strike payload whose call and put OI
both read zero, tier 2 returns a valid non-zero payload; the fetch returns
the tier-2 chain. -/
theorem c6_witness :
    (fetch_live_snapshot ⟨[], []⟩ "NIFTY"
        ⟨true, some "K", some "2026-01-29", none, none,
         some [⟨100, some ⟨0, 0⟩, some ⟨0, 0⟩⟩], "2026-01-05", "10:00"⟩
        ⟨some 1, none, false, some ["2026-01-29"],
         some ⟨[(100, ⟨5, 7, 1, 2⟩)], some "2026-01-05", some ["2026-01-29"]⟩,
         "2026-01-05", "10:00"⟩).2
      = (detailsOf [(100, ⟨5, 7, 1, 2⟩)]).map chainEntryOfDetail
    ∧ ∃ en ∈ (fetch_live_snapshot ⟨[], []⟩ "NIFTY"
        ⟨true, some "K", some "2026-01-29", none, none,
         some [⟨100, some ⟨0, 0⟩, some ⟨0, 0⟩⟩], "2026-01-05", "10:00"⟩
        ⟨some 1, none, false, some ["2026-01-29"],
         some ⟨[(100, ⟨5, 7, 1, 2⟩)], some "2026-01-05", some ["2026-01-29"]⟩,
         "2026-01-05", "10:00"⟩).2,
        en.call_oi ≠ 0 ∨ en.put_oi ≠ 0 :=
  c6_all_zero_tier_rejected ⟨[], []⟩ "NIFTY"
    ⟨true, some "K", some "2026-01-29", none, none,
     some [⟨100, some ⟨0, 0⟩, some ⟨0, 0⟩⟩], "2026-01-05", "10:00"⟩
    ⟨some 1, none, false, some ["2026-01-29"],
     some ⟨[(100, ⟨5, 7, 1, 2⟩)], some "2026-01-05", some ["2026-01-29"]⟩,
     "2026-01-05", "10:00"⟩
    [⟨100, some ⟨0, 0⟩, some ⟨0, 0⟩⟩]
    ⟨[(100, ⟨5, 7, 1, 2⟩)], some "2026-01-05", some ["2026-01-29"]⟩
    rfl ⟨"K", rfl⟩ ⟨"2026-01-29", rfl⟩ rfl (by decide) ⟨1, rfl⟩ ⟨"2026-01-29", rfl⟩ rfl
    (by decide) (by decide) (by decide) (by decide)

theorem dictGet?_insert_self (l : List (String × String)) (k v : String) :
    dictGet? (dictInsert l k v) k = some v := by
  induction l with
  | nil => simp [dictInsert, dictGet?]
  | cons p ps ih =>
      by_cases h : p.1 = k
      · have hb : (p.1 == k) = true := beq_iff_eq.mpr h
        simp [dictInsert, dictGet?, hb]
      · have hb : (p.1 == k) = false := beq_eq_false_iff_ne.mpr h
        simp [dictInsert, dictGet?, hb]

theorem dictGet?_insert_ne (l : List (String × String)) (k v k' : String) (h : k' ≠ k) :
    dictGet? (dictInsert l k v) k' = dictGet? l k' := by
  induction l with
  | nil =>
      have hb : (k == k') = false := beq_eq_false_iff_ne.mpr (Ne.symm h)
      simp [dictInsert, dictGet?, hb]
  | cons p ps ih =>
      by_cases h2 : p.1 = k
      · have hb2 : (p.1 == k) = true := beq_iff_eq.mpr h2
        have hb3 : (p.1 == k') = false := by
          apply beq_eq_false_iff_ne.mpr
          rw [h2]
          exact Ne.symm h
        simpa [dictInsert, dictGet?, hb2, hb3] using ih
      · have hb2 : (p.1 == k) = false := beq_eq_false_iff_ne.mpr h2
        by_cases h3 : p.1 = k'
        · have hb3 : (p.1 == k') = true := beq_iff_eq.mpr h3
          simp [dictInsert, dictGet?, hb2, hb3]
        · have hb3 : (p.1 == k') = false := beq_eq_false_iff_ne.mpr h3
          simpa [dictInsert, dictGet?, hb2, hb3] using ih

theorem mem_dictInsert {l : List (String × String)} {k v : String} {p : String × String}
    (h : p ∈ dictInsert l k v) : p = (k, v) ∨ p ∈ l := by
  unfold dictInsert at h
  rcases List.mem_append.mp h with h1 | h1
  · exact Or.inr (List.mem_of_mem_filter h1)
  · simp only [List.mem_singleton] at h1
    exact Or.inl h1

theorem keys_nodup_dictInsert (l : List (String × String)) (k v : String)
    (h : (l.map Prod.fst).Nodup) : ((dictInsert l k v).map Prod.fst).Nodup := by
  induction l with
  | nil => simp [dictInsert]
  | cons p ps ih =>
      simp only [List.map_cons, List.nodup_cons] at h
      by_cases h2 : p.1 = k
      · have hb : (p.1 == k) = true := beq_iff_eq.mpr h2
        simp only [dictInsert, List.filter_cons, hb, Bool.not_true, Bool.false_eq_true,
          if_false]
        exact ih h.2
      · have hb : (p.1 == k) = false := beq_eq_false_iff_ne.mpr h2
        have hstep : dictInsert (p :: ps) k v = p :: dictInsert ps k v := by
          simp [dictInsert, hb]
        rw [hstep, List.map_cons, List.nodup_cons]
        refine ⟨?_, ih h.2⟩
        intro hcon
        rcases List.mem_map.mp hcon with ⟨q, hq, hqe⟩
        rcases mem_dictInsert hq with h4 | h4
        · apply h2
          rw [← hqe, h4]
        · exact h.1 (hqe ▸ List.mem_map_of_mem Prod.fst h4)

theorem dictGet?_of_mem_nodup {l : List (String × String)} {p : String × String}
    (hnd : (l.map Prod.fst).Nodup) (hmem : p ∈ l) : dictGet? l p.1 = some p.2 := by
  induction l with
  | nil => cases hmem
  | cons q qs ih =>
      simp only [List.map_cons, List.nodup_cons] at hnd
      rcases List.mem_cons.mp hmem with h1 | h1
      · rw [h1]
        simp [dictGet?]
      · have hne : (q.1 == p.1) = false := by
          apply beq_eq_false_iff_ne.mpr
          intro hc
          exact hnd.1 (hc ▸ List.mem_map_of_mem Prod.fst h1)
        simpa [dictGet?, hne] using ih hnd.2 h1

theorem char_toUpper_toUpper (c : Char) : c.toUpper.toUpper = c.toUpper := by
  unfold Char.toUpper
  by_cases h : c.toNat ≥ 97 ∧ c.toNat ≤ 122
  · rw [if_pos h]
    have h32 : 65 ≤ c.toNat - 32 ∧ c.toNat - 32 ≤ 90 := by omega
    set m := c.toNat - 32 with hm
    have h65 : 65 ≤ m := h32.1
    have h90 : m ≤ 90 := h32.2
    interval_cases m <;> decide
  · rw [if_neg h, if_neg h]

theorem pyUpper_idem (s : String) : pyUpper (pyUpper s) = pyUpper s := by
  show String.mk (((String.mk (s.data.map Char.toUpper)).data).map Char.toUpper)
    = String.mk (s.data.map Char.toUpper)
  congr 1
  show (s.data.map Char.toUpper).map Char.toUpper = s.data.map Char.toUpper
  rw [List.map_map]
  apply List.map_congr_left
  intro c _
  exact char_toUpper_toUpper c

theorem addInstrumentRow_reverse (m : Mappings) (r : InstrumentRow) :
    (addInstrumentRow m r).reverse_mappings
      = dictInsert m.reverse_mappings r.instrument_key (pyUpper r.trading_symbol) := by
  unfold addInstrumentRow
  split_ifs <;> rfl

theorem addInstrumentRow_lookup_new (m : Mappings) (r : InstrumentRow)
    (hno : pyUpper r.trading_symbol ≠ "NIFTY" ∧ pyUpper r.trading_symbol ≠ "BANKNIFTY") :
    dictGet? (addInstrumentRow m r).mappings (pyUpper r.trading_symbol)
      = some r.instrument_key := by
  unfold addInstrumentRow
  split_ifs
  · rw [dictGet?_insert_ne _ _ _ _ hno.1]
    exact dictGet?_insert_self _ _ _
  · rw [dictGet?_insert_ne _ _ _ _ hno.2]
    exact dictGet?_insert_self _ _ _
  · exact dictGet?_insert_self _ _ _
  · exact dictGet?_insert_self _ _ _

theorem addInstrumentRow_lookup_old (m : Mappings) (r : InstrumentRow) (n : String)
    (hn1 : n ≠ pyUpper r.trading_symbol) (hn2 : n ≠ "NIFTY") (hn3 : n ≠ "BANKNIFTY") :
    dictGet? (addInstrumentRow m r).mappings n = dictGet? m.mappings n := by
  unfold addInstrumentRow
  split_ifs
  · rw [dictGet?_insert_ne _ _ _ _ hn2, dictGet?_insert_ne _ _ _ _ hn1]
  · rw [dictGet?_insert_ne _ _ _ _ hn3, dictGet?_insert_ne _ _ _ _ hn1]
  · exact dictGet?_insert_ne _ _ _ _ hn1
  · exact dictGet?_insert_ne _ _ _ _ hn1

theorem buildMappings_inv (l : List InstrumentRow) : ∀ (m : Mappings),
    (l.map (fun r => pyUpper r.trading_symbol)).Nodup →
    (∀ r ∈ l, pyUpper r.trading_symbol ≠ "NIFTY" ∧ pyUpper r.trading_symbol ≠ "BANKNIFTY") →
    (∀ p ∈ m.reverse_mappings, dictGet? m.mappings p.2 = some p.1) →
    (∀ p ∈ m.reverse_mappings, pyUpper p.2 = p.2) →
    ((m.reverse_mappings.map Prod.fst).Nodup) →
    (∀ p ∈ m.reverse_mappings, ∀ r ∈ l, p.2 ≠ pyUpper r.trading_symbol) →
    (∀ p ∈ m.reverse_mappings, p.2 ≠ "NIFTY" ∧ p.2 ≠ "BANKNIFTY") →
    (∀ p ∈ (l.foldl addInstrumentRow m).reverse_mappings,
        dictGet? (l.foldl addInstrumentRow m).mappings p.2 = some p.1)
    ∧ (∀ p ∈ (l.foldl addInstrumentRow m).reverse_mappings, pyUpper p.2 = p.2)
    ∧ ((l.foldl addInstrumentRow m).reverse_mappings.map Prod.fst).Nodup := by
  induction l with
  | nil =>
      intro m _ _ hinv hupper hkeys _ _
      exact ⟨hinv, hupper, hkeys⟩
  | cons r rs ih =>
      intro m hnd hali hinv hupper hkeys hfresh hsafe
      simp only [List.map_cons, List.nodup_cons] at hnd
      simp only [List.foldl_cons]
      apply ih (addInstrumentRow m r) hnd.2
      · intro r2 hr2
        exact hali r2 (List.mem_cons_of_mem _ hr2)
      · intro p hp
        rw [addInstrumentRow_reverse] at hp
        rcases mem_dictInsert hp with h1 | h1
        · rw [h1]
          exact addInstrumentRow_lookup_new m r (hali r (List.mem_cons_self _ _))
        · rw [addInstrumentRow_lookup_old m r p.2
            (hfresh p h1 r (List.mem_cons_self _ _)) (hsafe p h1).1 (hsafe p h1).2]
          exact hinv p h1
      · intro p hp
        rw [addInstrumentRow_reverse] at hp
        rcases mem_dictInsert hp with h1 | h1
        · rw [h1]
          exact pyUpper_idem r.trading_symbol
        · exact hupper p h1
      · rw [addInstrumentRow_reverse]
        exact keys_nodup_dictInsert _ _ _ hkeys
      · intro p hp r2 hr2
        rw [addInstrumentRow_reverse] at hp
        rcases mem_dictInsert hp with h1 | h1
        · rw [h1]
          intro hc
          apply hnd.1
          have hc2 : pyUpper r.trading_symbol = pyUpper r2.trading_symbol := hc
          rw [hc2]
          exact List.mem_map_of_mem _ hr2
        · exact hfresh p h1 r2 (List.mem_cons_of_mem _ hr2)
      · intro p hp
        rw [addInstrumentRow_reverse] at hp
        rcases mem_dictInsert hp with h1 | h1
        · rw [h1]
          exact hali r (List.mem_cons_self _ _)
        · exact hsafe p h1

/-- C5: after a successful initialization of a catalog whose retained rows
carry pairwise-distinct uppercased trading symbols, none of which collides
with the two reserved index aliases (the data-model invariant that
canonical symbols are unique in the table), resolution round-trips —
`resolve (reverseResolve k) = k` for every provider key `k` in the reverse
table — and resolution is case-insensitive: looking a symbol up and
looking its uppercased form up give the same answer. -/
theorem c5_resolver_roundtrip_case_insensitive (catalog : List InstrumentRow)
    (hnd : ((catalog.filter (fun r => r.segment == "NSE_EQ" || r.segment == "NSE_INDEX")).map
        (fun r => pyUpper r.trading_symbol)).Nodup)
    (hali : ∀ r ∈ catalog.filter (fun r => r.segment == "NSE_EQ" || r.segment == "NSE_INDEX"),
        pyUpper r.trading_symbol ≠ "NIFTY" ∧ pyUpper r.trading_symbol ≠ "BANKNIFTY") :
    (∀ p ∈ (buildMappings catalog).reverse_mappings,
        resolveKey (buildMappings catalog) (resolveTicker (buildMappings catalog) p.1)
          = some p.1)
    ∧ (∀ s : String, resolveKey (buildMappings catalog) s
        = resolveKey (buildMappings catalog) (pyUpper s)) := by
  have hmain := buildMappings_inv
    (catalog.filter (fun r => r.segment == "NSE_EQ" || r.segment == "NSE_INDEX"))
    emptyMappings hnd hali
    (by intro p hp; cases hp) (by intro p hp; cases hp) (by simp [emptyMappings])
    (by intro p hp; cases hp) (by intro p hp; cases hp)
  constructor
  · intro p hp
    have h1 : dictGet? (buildMappings catalog).reverse_mappings p.1 = some p.2 :=
      dictGet?_of_mem_nodup hmain.2.2 hp
    unfold resolveTicker
    rw [h1]
    show dictGet? (buildMappings catalog).mappings (pyUpper p.2) = some p.1
    rw [hmain.2.1 p hp]
    exact hmain.1 p hp
  · intro s
    unfold resolveKey
    rw [pyUpper_idem]

/-- C5 witness: a two-row catalog (one equity, one index); the reverse
entry for the equity's provider key round-trips, and resolving
`"reliance"` equals resolving its uppercased form. -/
theorem c5_witness :
    resolveKey (buildMappings
        [⟨"NSE_EQ", "RELIANCE", "NSE_EQ|INE002A01018", "Reliance Industries"⟩,
         ⟨"NSE_INDEX", "Nifty 50", "NSE_INDEX|Nifty 50", "Nifty 50"⟩])
      (resolveTicker (buildMappings
        [⟨"NSE_EQ", "RELIANCE", "NSE_EQ|INE002A01018", "Reliance Industries"⟩,
         ⟨"NSE_INDEX", "Nifty 50", "NSE_INDEX|Nifty 50", "Nifty 50"⟩])
        "NSE_EQ|INE002A01018") = some "NSE_EQ|INE002A01018"
    ∧ resolveKey (buildMappings
        [⟨"NSE_EQ", "RELIANCE", "NSE_EQ|INE002A01018", "Reliance Industries"⟩,
         ⟨"NSE_INDEX", "Nifty 50", "NSE_INDEX|Nifty 50", "Nifty 50"⟩]) "reliance"
      = resolveKey (buildMappings
        [⟨"NSE_EQ", "RELIANCE", "NSE_EQ|INE002A01018", "Reliance Industries"⟩,
         ⟨"NSE_INDEX", "Nifty 50", "NSE_INDEX|Nifty 50", "Nifty 50"⟩]) (pyUpper "reliance") :=
  ⟨(c5_resolver_roundtrip_case_insensitive
      [⟨"NSE_EQ", "RELIANCE", "NSE_EQ|INE002A01018", "Reliance Industries"⟩,
       ⟨"NSE_INDEX", "Nifty 50", "NSE_INDEX|Nifty 50", "Nifty 50"⟩]
      (by decide) (by decide)).1 ("NSE_EQ|INE002A01018", "RELIANCE") (by decide),
   (c5_resolver_roundtrip_case_insensitive
      [⟨"NSE_EQ", "RELIANCE", "NSE_EQ|INE002A01018", "Reliance Industries"⟩,
       ⟨"NSE_INDEX", "Nifty 50", "NSE_INDEX|Nifty 50", "Nifty 50"⟩]
      (by decide) (by decide)).2 "reliance"⟩
